import Mathlib

/-!
Verification of the bvx-kit voxel engine core against its specification.

The definitions below are a shallow embedding of the TypeScript sources:
pure functions become Lean functions on `Nat`/`Int` (JavaScript 32-bit
integer arithmetic is modelled explicitly with wrapping where the source
relies on it), typed arrays become `Array Nat` (out-of-bounds writes are
dropped, as for JS typed arrays), and code that can throw returns
`Except JSError`.
-/

set_option maxRecDepth 100000

namespace BvxKit

/-- Error values thrown by the source (RangeError for the geometry index
expander, plain Error for BitArray bounds violations). -/
inductive JSError where
  | rangeError (msg : String) : JSError
  | boundsError (msg : String) : JSError
deriving DecidableEq, Repr

/-- JavaScript ToUint32: the low 32 bits of a number, as a natural. -/
def toUint32 (i : Int) : Nat := (i % 4294967296).toNat

/-- JavaScript ToInt32: the low 32 bits of a number, as a signed value. -/
def toInt32 (i : Int) : Int :=
  let u : Int := i % 4294967296
  if u < 2147483648 then u else u - 4294967296

/-- JavaScript bitwise AND of a (possibly negative) 32-bit value with a
nonnegative mask below 2^31; the result is the AND of the two's-complement
bit pattern with the mask. -/
def jsAnd (a : Int) (m : Nat) : Nat := toUint32 a &&& m

section BitToolkit

/-- Addition of naturals with disjoint binary support is bitwise OR. -/
theorem add_eq_lor : ∀ (a b : Nat), a &&& b = 0 → a + b = a ||| b := by
  intro a
  induction a using Nat.binaryRec with
  | z => intro b _; simp
  | f xb xn ih =>
    intro b h
    rw [← Nat.bit_testBit_zero_shiftRight_one b] at h ⊢
    rw [Nat.land_bit] at h
    rw [Nat.bit_eq_zero_iff] at h
    obtain ⟨hn, hb⟩ := h
    rw [Nat.lor_bit]
    have ih2 := ih (b >>> 1) hn
    rw [← ih2]
    cases xb <;> cases hbb : b.testBit 0
    all_goals rw [hbb] at hb
    all_goals try (exact absurd hb (by decide))
    all_goals
      simp only [Nat.bit_val, Bool.toNat_true, Bool.toNat_false, Bool.or_true,
        Bool.or_false, Bool.true_or, Bool.false_or]
    all_goals omega

/-- Bitwise OR of naturals with disjoint binary support is addition. -/
theorem lor_eq_add (a b : Nat) (h : a &&& b = 0) : a ||| b = a + b :=
  (add_eq_lor a b h).symm

/-- Right shift distributes over bitwise OR. -/
theorem shiftRight_lor (a b n : Nat) : (a ||| b) >>> n = (a >>> n) ||| (b >>> n) := by
  apply Nat.eq_of_testBit_eq
  intro i
  simp [Nat.testBit_or]

/-- Left shift distributes over bitwise OR. -/
theorem shiftLeft_lor (a b n : Nat) : (a ||| b) <<< n = (a <<< n) ||| (b <<< n) := by
  apply Nat.eq_of_testBit_eq
  intro i
  simp only [Nat.testBit_shiftLeft, Nat.testBit_or]
  cases Nat.decLe n i <;> simp_all

/-- Left shift distributes over bitwise AND. -/
theorem shiftLeft_land (a b n : Nat) : (a <<< n) &&& (b <<< n) = (a &&& b) <<< n := by
  apply Nat.eq_of_testBit_eq
  intro i
  simp only [Nat.testBit_shiftLeft, Nat.testBit_and]
  cases Nat.decLe n i <;> simp_all

/-- Values whose supports live under shifts separated by the width of the
first value have empty intersection. -/
theorem shl_land_shl_eq_zero {v w k i j : Nat} (hv : v < 2 ^ k) (hij : i + k ≤ j) :
    (v <<< i) &&& (w <<< j) = 0 := by
  apply Nat.eq_of_testBit_eq
  intro t
  simp only [Nat.testBit_and, Nat.testBit_shiftLeft, Nat.zero_testBit]
  by_cases h1 : j ≤ t
  · have : k ≤ t - i := by omega
    have hv2 : v.testBit (t - i) = false :=
      Nat.testBit_lt_two_pow (Nat.lt_of_lt_of_le hv (Nat.pow_le_pow_right (by omega) this))
    simp [hv2]
  · simp [h1]

/-- A value contained in a mask is absorbed by OR with the mask. -/
theorem lor_absorb {a m : Nat} (h : a &&& m = a) : a ||| m = m := by
  apply Nat.eq_of_testBit_eq
  intro i
  have hc := congrArg (fun x => x.testBit i) h
  simp only [Nat.testBit_and] at hc
  simp only [Nat.testBit_or]
  cases h1 : a.testBit i <;> cases h2 : m.testBit i <;> simp_all

/-- A value contained in a mask is disjoint from any mask disjoint from it. -/
theorem land_eq_zero_of_subset {a m m' : Nat} (ha : a &&& m = a) (hmm : m &&& m' = 0) :
    a &&& m' = 0 := by
  calc a &&& m' = (a &&& m) &&& m' := by rw [ha]
    _ = a &&& (m &&& m') := Nat.and_assoc a m m'
    _ = a &&& 0 := by rw [hmm]
    _ = 0 := Nat.and_zero a

/-- Values contained in disjoint masks are disjoint. -/
theorem land_eq_zero_of_subsets {a b m m' : Nat} (ha : a &&& m = a) (hb : b &&& m' = b)
    (hmm : m &&& m' = 0) : a &&& b = 0 := by
  have h1 : a &&& m' = 0 := land_eq_zero_of_subset ha hmm
  calc a &&& b = a &&& (b &&& m') := by rw [hb]
    _ = a &&& (m' &&& b) := by rw [Nat.and_comm b m']
    _ = (a &&& m') &&& b := (Nat.and_assoc a m' b).symm
    _ = 0 &&& b := by rw [h1]
    _ = 0 := Nat.zero_and b

/-- Extraction of an OR component through its containing mask. -/
theorem lor_extract {a b m : Nat} (ha : a &&& m = a) (hb : b &&& m = 0) :
    (a ||| b) &&& m = a := by
  rw [Nat.and_distrib_right, ha, hb, Nat.or_zero]

/-- Left-commutativity of bitwise OR, for AC normalisation. -/
theorem lor_left_comm (a b c : Nat) : a ||| (b ||| c) = b ||| (a ||| c) := by
  rw [← Nat.or_assoc, Nat.or_comm a b, Nat.or_assoc]

/-- Containment in a mask is preserved along mask containment. -/
theorem land_subset_trans {a m M : Nat} (ha : a &&& m = a) (hm : m &&& M = m) :
    a &&& M = a := by
  calc a &&& M = (a &&& m) &&& M := by rw [ha]
    _ = a &&& (m &&& M) := Nat.and_assoc a m M
    _ = a &&& m := by rw [hm]
    _ = a := ha

/-- Right shift commutes with bitwise AND. -/
theorem land_shiftRight (a m s : Nat) : (a >>> s) &&& (m >>> s) = (a &&& m) >>> s := by
  apply Nat.eq_of_testBit_eq
  intro i
  simp [Nat.testBit_and]

/-- Shift cancellation across a one-position offset. -/
theorem shl1_shr2 (a : Nat) : (a <<< 1) >>> 2 = a >>> 1 := by
  apply Nat.eq_of_testBit_eq
  intro i
  simp [Nat.testBit_shiftRight, Nat.testBit_shiftLeft,
    show (1 : Nat) ≤ 2 + i from by omega, show 2 + i - 1 = 1 + i from by omega]

/-- Small-value containment: ANDing with a wide repeated mask equals ANDing
with the mask truncated below the value's width. -/
theorem land_congr_of_lt {a m k : Nat} (h : a < 2 ^ k) :
    a &&& m = a &&& (m &&& (2 ^ k - 1)) := by
  conv_lhs => rw [← Nat.and_pow_two_sub_one_of_lt_two_pow h]
  rw [Nat.and_assoc, Nat.and_comm (2 ^ k - 1) m]

end BitToolkit

/-- JavaScript left shift: both operands pass through ToInt32/ToUint32 and
the shift count is taken mod 32. -/
def jsShl (a b : Int) : Int := toInt32 (toInt32 a * 2 ^ (toUint32 b % 32))

/-- JavaScript bitwise NOT on the ToInt32 view of a number. -/
def jsNot (a : Int) : Int := -(toInt32 a) - 1

/-- JavaScript bitwise OR, producing the signed 32-bit result. -/
def jsOrI (a b : Int) : Int := toInt32 ((toUint32 a ||| toUint32 b : Nat) : Int)

/-- JavaScript bitwise AND, producing the signed 32-bit result. -/
def jsAndI (a b : Int) : Int := toInt32 ((toUint32 a &&& toUint32 b : Nat) : Int)

namespace BitOps

/-- Embedding of BitOps.bitAt: reads the bit of a 32-bit word at a position
in 0..31. -/
def bitAt (data pos : Nat) : Nat := (data >>> pos) &&& 1

/-- Embedding of BitOps.bitInvAt. -/
def bitInvAt (data pos : Nat) : Nat := 1 - ((data >>> pos) &&& 1)

/-- Embedding of BitOps.setBitAt. -/
def setBitAt (data pos : Nat) : Nat := data ||| (1 <<< pos)

/-- Embedding of BitOps.unsetBitAt: data & ~(1 << pos) on 32-bit words. -/
def unsetBitAt (data pos : Nat) : Nat := data &&& (4294967295 ^^^ (1 <<< pos))

/-- Embedding of BitOps.toggleBitAt. -/
def toggleBitAt (data pos : Nat) : Nat := data ^^^ (1 <<< pos)

/-- Embedding of BitOps.setBit: (data & ~mask) | ((bit << pos) & mask) with
mask = 1 << pos, for 32-bit data and pos in 0..31. -/
def setBit (data pos bit : Nat) : Nat :=
  (data &&& (4294967295 ^^^ (1 <<< pos))) ||| ((bit <<< pos) &&& (1 <<< pos))

/-- Embedding of BitOps.maskForBits: ~(0xFFFFFFFF << bits) with JavaScript
int32 shift semantics (the shift count is reduced mod 32). -/
def maskForBits (bits : Int) : Int := jsNot (jsShl 4294967295 bits)

/-- Embedding of BitOps.popCount, the SWAR population count. The final
JavaScript multiply is exact in doubles and the subsequent >> 24 acts on its
ToInt32 view, hence the explicit mod 2^32. -/
def popCount (data : Nat) : Nat :=
  let data0 := data - ((data >>> 1) &&& 0x55555555)
  let data1 := (data0 &&& 0x33333333) + ((data0 >>> 2) &&& 0x33333333)
  ((((data1 + (data1 >>> 4)) &&& 0x0F0F0F0F) * 0x01010101) % 4294967296) >>> 24

/-- Embedding of BitOps.flattenCoord2, including the source's bits*3 mask. -/
def flattenCoord2 (x y bits : Int) : Int :=
  jsAndI (jsOrI (jsShl x bits) y) (jsNot (jsShl 4294967295 (bits * 3)))

/-- Embedding of BitOps.flattenCoord3. -/
def flattenCoord3 (x y z bits : Int) : Int :=
  jsAndI (jsOrI (jsOrI (jsShl x (bits * 2)) (jsShl y bits)) z)
    (jsNot (jsShl 4294967295 (bits * 3)))

end BitOps

/-- Fuel-driven digit count; the fuel only needs to dominate the value. -/
def bitcountAux : Nat → Nat → Nat
  | 0, _ => 0
  | fuel + 1, n => if n = 0 then 0 else bitcountAux fuel (n / 2) + n % 2

/-- Mathematical number of set bits, used as the reference for popCount. -/
def bitcount (n : Nat) : Nat := bitcountAux n n

theorem bitcountAux_congr : ∀ f1 : Nat, ∀ f2 n : Nat, n ≤ f1 → n ≤ f2 →
    bitcountAux f1 n = bitcountAux f2 n := by
  intro f1
  induction f1 with
  | zero =>
    intro f2 n h1 _
    have hn : n = 0 := by omega
    cases f2 <;> simp [bitcountAux, hn]
  | succ f ih =>
    intro f2 n h1 h2
    cases f2 with
    | zero =>
      have hn : n = 0 := by omega
      simp [bitcountAux, hn]
    | succ g =>
      by_cases hn : n = 0
      · simp [bitcountAux, hn]
      · simp only [bitcountAux, hn, if_false]
        rw [ih g (n / 2) (by omega) (by omega)]

theorem bitcount_eq (n : Nat) (h : n ≠ 0) : bitcount n = bitcount (n / 2) + n % 2 := by
  cases n with
  | zero => exact absurd rfl h
  | succ m =>
    show bitcountAux (m + 1) (m + 1) = bitcount ((m + 1) / 2) + (m + 1) % 2
    simp only [bitcountAux, Nat.succ_ne_zero, if_false]
    rw [bitcountAux_congr m ((m + 1) / 2) ((m + 1) / 2) (by omega) (by omega)]
    rfl

theorem bitcount_two_mul_add (a r : Nat) (hr : r < 2) :
    bitcount (2 * a + r) = bitcount a + r := by
  by_cases hz : 2 * a + r = 0
  · have ha : a = 0 := by omega
    have hrr : r = 0 := by omega
    simp [ha, hrr, bitcount]
  · rw [bitcount_eq _ hz]
    have h1 : (2 * a + r) / 2 = a := by omega
    have h2 : (2 * a + r) % 2 = r := by omega
    rw [h1, h2]

/-- Additivity of bitcount over a split into high and low parts. -/
theorem bitcount_mul_pow_add (k : Nat) : ∀ a b : Nat, b < 2 ^ k →
    bitcount (2 ^ k * a + b) = bitcount a + bitcount b := by
  induction k with
  | zero =>
    intro a b hb
    have hb0 : b = 0 := by omega
    simp [hb0, bitcount, bitcountAux]
  | succ k ih =>
    intro a b hb
    have hsplit : 2 ^ (k + 1) * a + b = 2 * (2 ^ k * a + b / 2) + b % 2 := by
      have hp : 2 ^ (k + 1) * a = 2 * (2 ^ k * a) := by ring
      omega
    rw [hsplit, bitcount_two_mul_add _ _ (Nat.mod_lt _ (by norm_num)), ih a (b / 2) (by omega)]
    by_cases hbz : b = 0
    · simp [hbz, bitcount]
    · rw [bitcount_eq b hbz]
      ring

theorem bitcount_pos (n : Nat) (h : n ≠ 0) : 0 < bitcount n := by
  induction n using Nat.strong_induction_on with
  | _ n ih =>
    rw [bitcount_eq n h]
    rcases Nat.mod_two_eq_zero_or_one n with h2 | h2
    · have hh : n / 2 ≠ 0 := by omega
      have := ih (n / 2) (by omega) hh
      omega
    · omega

section ByteSplit

theorem sum_lo_eq_or {b k : Nat} (hb : b < 2 ^ k) (a : Nat) :
    2 ^ k * a + b = (a <<< k) ||| b := by
  rw [Nat.mul_add_lt_is_or hb a, Nat.shiftLeft_eq, Nat.mul_comm]

theorem testBit_false_of_lt {x b i : Nat} (hx : x < 2 ^ b) (hb : b ≤ i) :
    x.testBit i = false :=
  Nat.testBit_lt_two_pow (lt_of_lt_of_le hx (Nat.pow_le_pow_right (by norm_num) hb))

/-- Decomposition of a four-byte value into an OR of shifted bytes. -/
theorem byte_sum_eq_or (e0 e1 e2 e3 : Nat) (h0 : e0 < 256) (h1 : e1 < 256) (h2 : e2 < 256) :
    e0 + 256 * e1 + 65536 * e2 + 16777216 * e3
      = (((e3 <<< 24) ||| (e2 <<< 16)) ||| (e1 <<< 8)) ||| e0 := by
  have hs0 : e0 + 256 * e1 + 65536 * e2 + 16777216 * e3
      = 2 ^ 8 * (e1 + 256 * e2 + 65536 * e3) + e0 := by ring
  have hs1 : e1 + 256 * e2 + 65536 * e3 = 2 ^ 8 * (e2 + 256 * e3) + e1 := by ring
  have hs2 : e2 + 256 * e3 = 2 ^ 8 * e3 + e2 := by ring
  have hb0 : e0 < 2 ^ 8 := by omega
  have hb1 : e1 < 2 ^ 8 := by omega
  have hb2 : e2 < 2 ^ 8 := by omega
  rw [hs0, sum_lo_eq_or hb0, hs1, sum_lo_eq_or hb1, hs2, sum_lo_eq_or hb2]
  simp only [shiftLeft_lor, ← Nat.shiftLeft_add]

/-- Bitwise AND with a byte-uniform mask acts independently on each byte. -/
theorem byteSplit_land (e0 e1 e2 e3 m : Nat)
    (h0 : e0 < 256) (h1 : e1 < 256) (h2 : e2 < 256) (h3 : e3 < 256) (hm : m < 256) :
    (e0 + 256 * e1 + 65536 * e2 + 16777216 * e3) &&&
      (m + 256 * m + 65536 * m + 16777216 * m)
      = (e0 &&& m) + 256 * (e1 &&& m) + 65536 * (e2 &&& m) + 16777216 * (e3 &&& m) := by
  have hb0 : e0 &&& m < 256 := lt_of_le_of_lt Nat.and_le_left h0
  have hb1 : e1 &&& m < 256 := lt_of_le_of_lt Nat.and_le_left h1
  have hb2 : e2 &&& m < 256 := lt_of_le_of_lt Nat.and_le_left h2
  rw [byte_sum_eq_or e0 e1 e2 e3 h0 h1 h2, byte_sum_eq_or m m m m hm hm hm,
    byte_sum_eq_or _ _ _ _ hb0 hb1 hb2]
  apply Nat.eq_of_testBit_eq
  intro i
  by_cases g8 : 8 ≤ i
  · by_cases g16 : 16 ≤ i
    · by_cases g24 : 24 ≤ i
      · have k0 : e0.testBit i = false := testBit_false_of_lt (b := 8) h0 g8
        have km : m.testBit i = false := testBit_false_of_lt (b := 8) hm g8
        have k1 : e1.testBit (i - 8) = false := testBit_false_of_lt (b := 8) h1 (by omega)
        have km1 : m.testBit (i - 8) = false := testBit_false_of_lt (b := 8) hm (by omega)
        have k2 : e2.testBit (i - 16) = false := testBit_false_of_lt (b := 8) h2 (by omega)
        have km2 : m.testBit (i - 16) = false := testBit_false_of_lt (b := 8) hm (by omega)
        simp [Nat.testBit_or, Nat.testBit_and, Nat.testBit_shiftLeft, g8, g16, g24,
          k0, km, k1, km1, k2, km2]
      · have k0 : e0.testBit i = false := testBit_false_of_lt (b := 8) h0 g8
        have km : m.testBit i = false := testBit_false_of_lt (b := 8) hm g8
        have k1 : e1.testBit (i - 8) = false := testBit_false_of_lt (b := 8) h1 (by omega)
        have km1 : m.testBit (i - 8) = false := testBit_false_of_lt (b := 8) hm (by omega)
        simp [Nat.testBit_or, Nat.testBit_and, Nat.testBit_shiftLeft, g8, g16, g24,
          k0, km, k1, km1]
    · have g24 : ¬ 24 ≤ i := by omega
      have k0 : e0.testBit i = false := testBit_false_of_lt (b := 8) h0 g8
      have km : m.testBit i = false := testBit_false_of_lt (b := 8) hm g8
      simp [Nat.testBit_or, Nat.testBit_and, Nat.testBit_shiftLeft, g8, g16, g24, k0, km]
  · have g16 : ¬ 16 ≤ i := by omega
    have g24 : ¬ 24 ≤ i := by omega
    simp [Nat.testBit_or, Nat.testBit_and, Nat.testBit_shiftLeft, g8, g16, g24]

end ByteSplit

section PopCountCorrect

/-- Per-byte view of the first SWAR stage. -/
def pb1 (b : Nat) : Nat := b - ((b >>> 1) &&& 0x55)

/-- Per-byte view of the second SWAR stage. -/
def pb2 (c : Nat) : Nat := (c &&& 0x33) + ((c >>> 2) &&& 0x33)

theorem pb_facts : ∀ b, b < 256 →
    ((b >>> 1) &&& 0x55 ≤ b) ∧ pb1 b < 256 ∧
    pb2 (pb1 b) % 16 ≤ 4 ∧ pb2 (pb1 b) / 16 ≤ 4 ∧
    pb2 (pb1 b) % 16 + pb2 (pb1 b) / 16 = bitcount b := by
  decide

theorem shr1_byte : ∀ b, b < 256 → ∀ c, c < 2 →
    (b / 2 + 128 * c) &&& 0x55 = (b >>> 1) &&& 0x55 := by
  decide

theorem shr2_byte : ∀ b, b < 256 → ∀ c, c < 4 →
    (b / 4 + 64 * c) &&& 0x33 = (b >>> 2) &&& 0x33 := by
  decide

/-- Correctness of the embedded SWAR population count on 32-bit words. -/
theorem popCount_eq_bitcount (d : Nat) (hd : d < 4294967296) :
    BitOps.popCount d = bitcount d := by
  obtain ⟨P0, P1, P2, P3, P4⟩ :
      (∀ b, b < 256 → (b >>> 1) &&& 0x55 ≤ b) ∧ (∀ b, b < 256 → pb1 b < 256) ∧
      (∀ b, b < 256 → pb2 (pb1 b) % 16 ≤ 4) ∧ (∀ b, b < 256 → pb2 (pb1 b) / 16 ≤ 4) ∧
      (∀ b, b < 256 → pb2 (pb1 b) % 16 + pb2 (pb1 b) / 16 = bitcount b) := by
    refine ⟨fun b hb => (pb_facts b hb).1, fun b hb => (pb_facts b hb).2.1,
      fun b hb => (pb_facts b hb).2.2.1, fun b hb => (pb_facts b hb).2.2.2.1,
      fun b hb => (pb_facts b hb).2.2.2.2⟩
  set B0 := d % 256 with hB0
  set B1 := d / 256 % 256 with hB1
  set B2 := d / 65536 % 256 with hB2
  set B3 := d / 16777216 with hB3
  have b0 : B0 < 256 := by omega
  have b1 : B1 < 256 := by omega
  have b2 : B2 < 256 := by omega
  have b3 : B3 < 256 := by omega
  have hd_eq : d = B0 + 256 * B1 + 65536 * B2 + 16777216 * B3 := by omega
  -- stage 1
  have hshr1 : d >>> 1 = (B0 / 2 + 128 * (B1 % 2)) + 256 * (B1 / 2 + 128 * (B2 % 2))
      + 65536 * (B2 / 2 + 128 * (B3 % 2)) + 16777216 * (B3 / 2) := by
    rw [Nat.shiftRight_eq_div_pow]
    omega
  have hmask1 : (d >>> 1) &&& 0x55555555
      = ((B0 >>> 1) &&& 0x55) + 256 * ((B1 >>> 1) &&& 0x55)
        + 65536 * ((B2 >>> 1) &&& 0x55) + 16777216 * ((B3 >>> 1) &&& 0x55) := by
    rw [hshr1]
    have e55 : (0x55555555 : Nat) = 0x55 + 256 * 0x55 + 65536 * 0x55 + 16777216 * 0x55 := by
      norm_num
    rw [e55, byteSplit_land _ _ _ _ _ (by omega) (by omega) (by omega) (by omega) (by norm_num)]
    rw [shr1_byte B0 b0 (B1 % 2) (by omega), shr1_byte B1 b1 (B2 % 2) (by omega),
      shr1_byte B2 b2 (B3 % 2) (by omega)]
    have hz : B3 / 2 + 128 * 0 = B3 / 2 := by omega
    rw [← hz, shr1_byte B3 b3 0 (by omega)]
  have hst1 : d - ((d >>> 1) &&& 0x55555555)
      = pb1 B0 + 256 * pb1 B1 + 65536 * pb1 B2 + 16777216 * pb1 B3 := by
    rw [hmask1]
    have q0 := P0 B0 b0
    have q1 := P0 B1 b1
    have q2 := P0 B2 b2
    have q3 := P0 B3 b3
    simp only [pb1]
    omega
  set C0 := pb1 B0
  set C1 := pb1 B1
  set C2 := pb1 B2
  set C3 := pb1 B3
  have c0 : C0 < 256 := P1 B0 b0
  have c1 : C1 < 256 := P1 B1 b1
  have c2 : C2 < 256 := P1 B2 b2
  have c3 : C3 < 256 := P1 B3 b3
  -- stage 2
  have e33 : (0x33333333 : Nat) = 0x33 + 256 * 0x33 + 65536 * 0x33 + 16777216 * 0x33 := by
    norm_num
  have hmask2a : (d - ((d >>> 1) &&& 0x55555555)) &&& 0x33333333
      = (C0 &&& 0x33) + 256 * (C1 &&& 0x33) + 65536 * (C2 &&& 0x33)
        + 16777216 * (C3 &&& 0x33) := by
    rw [hst1, e33, byteSplit_land _ _ _ _ _ c0 c1 c2 c3 (by norm_num)]
  have hshr2 : (d - ((d >>> 1) &&& 0x55555555)) >>> 2
      = (C0 / 4 + 64 * (C1 % 4)) + 256 * (C1 / 4 + 64 * (C2 % 4))
        + 65536 * (C2 / 4 + 64 * (C3 % 4)) + 16777216 * (C3 / 4) := by
    rw [hst1, Nat.shiftRight_eq_div_pow]
    omega
  have hmask2b : ((d - ((d >>> 1) &&& 0x55555555)) >>> 2) &&& 0x33333333
      = ((C0 >>> 2) &&& 0x33) + 256 * ((C1 >>> 2) &&& 0x33)
        + 65536 * ((C2 >>> 2) &&& 0x33) + 16777216 * ((C3 >>> 2) &&& 0x33) := by
    rw [hshr2, e33, byteSplit_land _ _ _ _ _ (by omega) (by omega) (by omega) (by omega)
      (by norm_num)]
    rw [shr2_byte C0 c0 (C1 % 4) (by omega), shr2_byte C1 c1 (C2 % 4) (by omega),
      shr2_byte C2 c2 (C3 % 4) (by omega)]
    have hz : C3 / 4 + 64 * 0 = C3 / 4 := by omega
    rw [← hz, shr2_byte C3 c3 0 (by omega)]
  have hst2 : ((d - ((d >>> 1) &&& 0x55555555)) &&& 0x33333333)
        + (((d - ((d >>> 1) &&& 0x55555555)) >>> 2) &&& 0x33333333)
      = pb2 C0 + 256 * pb2 C1 + 65536 * pb2 C2 + 16777216 * pb2 C3 := by
    rw [hmask2a, hmask2b]
    simp only [pb2]
    ring
  set D0 := pb2 C0
  set D1 := pb2 C1
  set D2 := pb2 C2
  set D3 := pb2 C3
  have dl0 : D0 % 16 ≤ 4 := P2 B0 b0
  have dl1 : D1 % 16 ≤ 4 := P2 B1 b1
  have dl2 : D2 % 16 ≤ 4 := P2 B2 b2
  have dl3 : D3 % 16 ≤ 4 := P2 B3 b3
  have dh0 : D0 / 16 ≤ 4 := P3 B0 b0
  have dh1 : D1 / 16 ≤ 4 := P3 B1 b1
  have dh2 : D2 / 16 ≤ 4 := P3 B2 b2
  have dh3 : D3 / 16 ≤ 4 := P3 B3 b3
  -- stage 3: sum with the nibble-shifted value, then mask to low nibbles
  set S := D0 + 256 * D1 + 65536 * D2 + 16777216 * D3 with hS
  have hshr4 : S >>> 4 = (D0 / 16 + 16 * (D1 % 16)) + 256 * (D1 / 16 + 16 * (D2 % 16))
      + 65536 * (D2 / 16 + 16 * (D3 % 16)) + 16777216 * (D3 / 16) := by
    rw [Nat.shiftRight_eq_div_pow, hS]
    omega
  have hsum3 : S + S >>> 4
      = (D0 + D0 / 16 + 16 * (D1 % 16)) + 256 * (D1 + D1 / 16 + 16 * (D2 % 16))
        + 65536 * (D2 + D2 / 16 + 16 * (D3 % 16)) + 16777216 * (D3 + D3 / 16) := by
    rw [hshr4, hS]
    ring
  have eFF : (0x0F0F0F0F : Nat) = 0x0F + 256 * 0x0F + 65536 * 0x0F + 16777216 * 0x0F := by
    norm_num
  have hnib : ∀ x : Nat, x &&& 0x0F = x % 16 := by
    intro x
    have := Nat.and_pow_two_sub_one_eq_mod x 4
    norm_num at this
    exact this
  have hmask3 : (S + S >>> 4) &&& 0x0F0F0F0F
      = (D0 % 16 + D0 / 16) + 256 * (D1 % 16 + D1 / 16)
        + 65536 * (D2 % 16 + D2 / 16) + 16777216 * (D3 % 16 + D3 / 16) := by
    rw [hsum3, eFF, byteSplit_land _ _ _ _ _ (by omega) (by omega) (by omega) (by omega)
      (by norm_num)]
    rw [hnib, hnib, hnib, hnib]
    have r0 : (D0 + D0 / 16 + 16 * (D1 % 16)) % 16 = D0 % 16 + D0 / 16 := by omega
    have r1 : (D1 + D1 / 16 + 16 * (D2 % 16)) % 16 = D1 % 16 + D1 / 16 := by omega
    have r2 : (D2 + D2 / 16 + 16 * (D3 % 16)) % 16 = D2 % 16 + D2 / 16 := by omega
    have r3 : (D3 + D3 / 16) % 16 = D3 % 16 + D3 / 16 := by omega
    rw [r0, r1, r2, r3]
  -- final multiply-and-extract
  have hfinal : ((((S + S >>> 4) &&& 0x0F0F0F0F) * 0x01010101) % 4294967296) >>> 24
      = (D0 % 16 + D0 / 16) + (D1 % 16 + D1 / 16) + (D2 % 16 + D2 / 16)
        + (D3 % 16 + D3 / 16) := by
    rw [hmask3, Nat.shiftRight_eq_div_pow]
    have h24 : (2 : Nat) ^ 24 = 16777216 := by norm_num
    rw [h24]
    set v0 := D0 % 16 + D0 / 16 with hv0e
    set v1 := D1 % 16 + D1 / 16 with hv1e
    set v2 := D2 % 16 + D2 / 16 with hv2e
    set v3 := D3 % 16 + D3 / 16 with hv3e
    have hv0 : v0 ≤ 8 := by omega
    have hv1 : v1 ≤ 8 := by omega
    have hv2 : v2 ≤ 8 := by omega
    have hv3 : v3 ≤ 8 := by omega
    have hexp : (v0 + 256 * v1 + 65536 * v2 + 16777216 * v3) * 16843009
        = (v0 + (v0 + v1) * 256 + (v0 + v1 + v2) * 65536 + (v0 + v1 + v2 + v3) * 16777216)
          + 4294967296 * ((v1 + v2 + v3) + (v2 + v3) * 256 + v3 * 65536) := by
      ring
    rw [hexp, Nat.add_mul_mod_self_left]
    have hAlt : v0 + (v0 + v1) * 256 + (v0 + v1 + v2) * 65536
        + (v0 + v1 + v2 + v3) * 16777216 < 4294967296 := by omega
    rw [Nat.mod_eq_of_lt hAlt]
    omega
  have hpc : BitOps.popCount d
      = (D0 % 16 + D0 / 16) + (D1 % 16 + D1 / 16) + (D2 % 16 + D2 / 16)
        + (D3 % 16 + D3 / 16) := by
    simp only [BitOps.popCount]
    rw [hst2]
    exact hfinal
  rw [hpc, P4 B0 b0, P4 B1 b1, P4 B2 b2, P4 B3 b3]
  -- bitcount additivity over the byte decomposition of d
  have a1 : bitcount d = bitcount (d / 256) + bitcount B0 := by
    have hx : d = 2 ^ 8 * (d / 256) + B0 := by omega
    conv_lhs => rw [hx]
    exact bitcount_mul_pow_add 8 (d / 256) B0 (by omega)
  have a2 : bitcount (d / 256) = bitcount (d / 65536) + bitcount B1 := by
    have hx : d / 256 = 2 ^ 8 * (d / 65536) + B1 := by omega
    conv_lhs => rw [hx]
    exact bitcount_mul_pow_add 8 (d / 65536) B1 (by omega)
  have a3 : bitcount (d / 65536) = bitcount B3 + bitcount B2 := by
    have hx : d / 65536 = 2 ^ 8 * B3 + B2 := by omega
    conv_lhs => rw [hx]
    exact bitcount_mul_pow_add 8 B3 B2 (by omega)
  omega

/-- Positivity of the SWAR count on nonzero 32-bit words. -/
theorem popCount_pos (d : Nat) (hd : d < 4294967296) (hz : d ≠ 0) :
    0 < BitOps.popCount d := by
  rw [popCount_eq_bitcount d hd]
  exact bitcount_pos d hz

end PopCountCorrect

namespace Morton

/-- Interleave masks of the Morton key, one bit lane per axis. -/
def X3 : Nat := 0x09249249

def Y3 : Nat := 0x12492492

def Z3 : Nat := 0x24924924

def XY3 : Nat := X3 ||| Y3

def XZ3 : Nat := X3 ||| Z3

def YZ3 : Nat := Y3 ||| Z3

/-- Embedding of MortonKey._EncodePart, the masked interleave ladder. -/
def encodePart (n : Nat) : Nat :=
  let n0 := n &&& 0x000003ff
  let n1 := (n0 ^^^ (n0 <<< 16)) &&& 0xff0000ff
  let n2 := (n1 ^^^ (n1 <<< 8)) &&& 0x0300f00f
  let n3 := (n2 ^^^ (n2 <<< 4)) &&& 0x030c30c3
  (n3 ^^^ (n3 <<< 2)) &&& 0x09249249

/-- Embedding of MortonKey._DecodePart, the inverse ladder. -/
def decodePart (n : Nat) : Nat :=
  let n0 := n &&& 0x09249249
  let n1 := (n0 ^^^ (n0 >>> 2)) &&& 0x030c30c3
  let n2 := (n1 ^^^ (n1 >>> 4)) &&& 0x0300f00f
  let n3 := (n2 ^^^ (n2 >>> 8)) &&& 0xff0000ff
  (n3 ^^^ (n3 >>> 16)) &&& 0x000003ff

/-- Embedding of MortonKey.from on already nonnegative inputs: each
component is masked to 10 bits and interleaved. -/
def fromN (x y z : Nat) : Nat :=
  ((encodePart (z &&& 1023)) <<< 2) + ((encodePart (y &&& 1023)) <<< 1) + encodePart (x &&& 1023)

/-- Embedding of MortonKey.from for arbitrary JavaScript integer inputs:
the source masks each coordinate with KEY_MASK using int32 bitwise AND. -/
def fromI (x y z : Int) : Nat := fromN (jsAnd x 1023) (jsAnd y 1023) (jsAnd z 1023)

/-- Decoded x component (MortonKey.x getter). -/
def getX (k : Nat) : Nat := decodePart k

/-- Decoded y component (MortonKey.y getter). -/
def getY (k : Nat) : Nat := decodePart (k >>> 1)

/-- Decoded z component (MortonKey.z getter). -/
def getZ (k : Nat) : Nat := decodePart (k >>> 2)

/-- Embedding of MortonKey.incX. -/
def incX (k : Nat) : Nat := (((k ||| YZ3) + 1) &&& X3) ||| (k &&& YZ3)

/-- Embedding of MortonKey.decX; the subtraction underflows through the
JavaScript int32 bit pattern. -/
def decX (k : Nat) : Nat := (jsAnd (((k &&& X3 : Nat) : Int) - 1) X3) ||| (k &&& YZ3)

/-- Embedding of MortonKey.incY. -/
def incY (k : Nat) : Nat := (((k ||| XZ3) + 2) &&& Y3) ||| (k &&& XZ3)

/-- Embedding of MortonKey.decY. -/
def decY (k : Nat) : Nat := (jsAnd (((k &&& Y3 : Nat) : Int) - 2) Y3) ||| (k &&& XZ3)

/-- Embedding of MortonKey.incZ. -/
def incZ (k : Nat) : Nat := (((k ||| XY3) + 1) &&& Z3) ||| (k &&& XY3)

/-- Embedding of MortonKey.decZ. -/
def decZ (k : Nat) : Nat := (jsAnd (((k &&& Z3 : Nat) : Int) - 1) Z3) ||| (k &&& XY3)

theorem encodePart_eq_mod (n : Nat) : encodePart n = encodePart (n % 1024) := by
  have h1 : n &&& 1023 = n % 1024 := by
    have := Nat.and_pow_two_sub_one_eq_mod n 10
    norm_num at this
    exact this
  have h2 : n % 1024 &&& 1023 = n % 1024 := by
    have := Nat.and_pow_two_sub_one_eq_mod (n % 1024) 10
    norm_num at this
    omega
  have h : n &&& 1023 = n % 1024 &&& 1023 := by rw [h1, h2]
  simp only [encodePart]
  rw [h]

theorem encodePart_land_X3 (n : Nat) : encodePart n &&& X3 = encodePart n := by
  simp only [encodePart, X3]
  rw [Nat.and_assoc, Nat.and_self]

theorem Y3_eq : Y3 = X3 <<< 1 := by decide

theorem Z3_eq : Z3 = X3 <<< 2 := by decide

theorem encodePart_shl1_land_Y3 (n : Nat) : (encodePart n <<< 1) &&& Y3 = encodePart n <<< 1 := by
  rw [Y3_eq, shiftLeft_land, encodePart_land_X3]

theorem encodePart_shl2_land_Z3 (n : Nat) : (encodePart n <<< 2) &&& Z3 = encodePart n <<< 2 := by
  rw [Z3_eq, shiftLeft_land, encodePart_land_X3]

theorem encodePart_land1023 (n : Nat) : encodePart (n &&& 1023) = encodePart n := by
  simp only [encodePart]
  rw [Nat.and_assoc, Nat.and_self]

theorem decode_encode : ∀ n, n < 1024 → decodePart (encodePart n) = n := by decide

theorem incX_core : ∀ n, n < 1024 →
    (((encodePart n ||| YZ3) + 1) &&& X3) = encodePart ((n + 1) % 1024) := by decide

theorem decX_core : ∀ n, n < 1024 →
    jsAnd ((encodePart n : Int) - 1) X3 = encodePart ((n + 1023) % 1024) := by decide

theorem incY_core : ∀ n, n < 1024 →
    ((((encodePart n <<< 1) ||| XZ3) + 2) &&& Y3) = encodePart ((n + 1) % 1024) <<< 1 := by decide

theorem decY_core : ∀ n, n < 1024 →
    jsAnd (((encodePart n <<< 1 : Nat) : Int) - 2) Y3 = encodePart ((n + 1023) % 1024) <<< 1 := by
  decide

theorem incZ_core : ∀ n, n < 1024 →
    ((((encodePart n <<< 2) ||| XY3) + 1) &&& Z3) = encodePart ((n + 1) % 1024) <<< 2 := by decide

theorem decZ_core : ∀ n, n < 1024 →
    jsAnd (((encodePart n <<< 2 : Nat) : Int) - 1) Z3 = encodePart ((n + 1023) % 1024) <<< 2 := by
  decide

/-- Interleaved key of fromN in disjoint OR form. -/
theorem fromN_eq_or (x y z : Nat) :
    fromN x y z = ((encodePart z <<< 2) ||| (encodePart y <<< 1)) ||| encodePart x := by
  have d1 : (encodePart z <<< 2) &&& (encodePart y <<< 1) = 0 :=
    land_eq_zero_of_subsets (encodePart_shl2_land_Z3 z) (encodePart_shl1_land_Y3 y) (by decide)
  have d2 : ((encodePart z <<< 2) ||| (encodePart y <<< 1)) &&& encodePart x = 0 := by
    rw [Nat.and_distrib_right,
      land_eq_zero_of_subsets (encodePart_shl2_land_Z3 z) (encodePart_land_X3 x) (by decide),
      land_eq_zero_of_subsets (encodePart_shl1_land_Y3 y) (encodePart_land_X3 x) (by decide)]
    rfl
  unfold fromN
  rw [encodePart_land1023, encodePart_land1023, encodePart_land1023]
  rw [add_eq_lor _ _ d1, add_eq_lor _ _ d2]

theorem key_land_X3 (x y z : Nat) :
    (((encodePart z <<< 2) ||| (encodePart y <<< 1)) ||| encodePart x) &&& X3 = encodePart x := by
  rw [Nat.and_distrib_right, Nat.and_distrib_right,
    land_eq_zero_of_subset (encodePart_shl2_land_Z3 z) (by decide),
    land_eq_zero_of_subset (encodePart_shl1_land_Y3 y) (by decide),
    encodePart_land_X3]
  simp

theorem key_land_Y3 (x y z : Nat) :
    (((encodePart z <<< 2) ||| (encodePart y <<< 1)) ||| encodePart x) &&& Y3
      = encodePart y <<< 1 := by
  rw [Nat.and_distrib_right, Nat.and_distrib_right,
    land_eq_zero_of_subset (encodePart_shl2_land_Z3 z) (by decide),
    land_eq_zero_of_subset (encodePart_land_X3 x) (by decide),
    encodePart_shl1_land_Y3]
  simp

theorem key_land_Z3 (x y z : Nat) :
    (((encodePart z <<< 2) ||| (encodePart y <<< 1)) ||| encodePart x) &&& Z3
      = encodePart z <<< 2 := by
  rw [Nat.and_distrib_right, Nat.and_distrib_right,
    land_eq_zero_of_subset (encodePart_shl1_land_Y3 y) (by decide),
    land_eq_zero_of_subset (encodePart_land_X3 x) (by decide),
    encodePart_shl2_land_Z3]
  simp

theorem key_land_YZ3 (x y z : Nat) :
    (((encodePart z <<< 2) ||| (encodePart y <<< 1)) ||| encodePart x) &&& YZ3
      = (encodePart z <<< 2) ||| (encodePart y <<< 1) := by
  rw [Nat.and_distrib_right, Nat.and_distrib_right,
    land_subset_trans (encodePart_shl2_land_Z3 z) (by decide),
    land_subset_trans (encodePart_shl1_land_Y3 y) (by decide),
    land_eq_zero_of_subset (encodePart_land_X3 x) (by decide)]
  simp

theorem key_land_XZ3 (x y z : Nat) :
    (((encodePart z <<< 2) ||| (encodePart y <<< 1)) ||| encodePart x) &&& XZ3
      = (encodePart z <<< 2) ||| encodePart x := by
  rw [Nat.and_distrib_right, Nat.and_distrib_right,
    land_subset_trans (encodePart_shl2_land_Z3 z) (by decide),
    land_subset_trans (encodePart_land_X3 x) (by decide),
    land_eq_zero_of_subset (encodePart_shl1_land_Y3 y) (by decide)]
  simp

theorem key_land_XY3 (x y z : Nat) :
    (((encodePart z <<< 2) ||| (encodePart y <<< 1)) ||| encodePart x) &&& XY3
      = (encodePart y <<< 1) ||| encodePart x := by
  rw [Nat.and_distrib_right, Nat.and_distrib_right,
    land_subset_trans (encodePart_shl1_land_Y3 y) (by decide),
    land_subset_trans (encodePart_land_X3 x) (by decide),
    land_eq_zero_of_subset (encodePart_shl2_land_Z3 z) (by decide)]
  simp

theorem key_or_YZ3 (x y z : Nat) :
    (((encodePart z <<< 2) ||| (encodePart y <<< 1)) ||| encodePart x) ||| YZ3
      = encodePart x ||| YZ3 := by
  have habs : ((encodePart z <<< 2) ||| (encodePart y <<< 1)) ||| YZ3 = YZ3 := by
    apply lor_absorb
    rw [Nat.and_distrib_right, land_subset_trans (encodePart_shl2_land_Z3 z) (by decide),
      land_subset_trans (encodePart_shl1_land_Y3 y) (by decide)]
  rw [Nat.or_assoc, Nat.or_comm (encodePart x) YZ3, ← Nat.or_assoc, habs,
    Nat.or_comm YZ3 (encodePart x)]

theorem key_or_XZ3 (x y z : Nat) :
    (((encodePart z <<< 2) ||| (encodePart y <<< 1)) ||| encodePart x) ||| XZ3
      = (encodePart y <<< 1) ||| XZ3 := by
  have habs1 : (encodePart z <<< 2) ||| XZ3 = XZ3 :=
    lor_absorb (land_subset_trans (encodePart_shl2_land_Z3 z) (by decide))
  have habs2 : encodePart x ||| XZ3 = XZ3 :=
    lor_absorb (land_subset_trans (encodePart_land_X3 x) (by decide))
  rw [Nat.or_assoc, Nat.or_assoc, habs2, Nat.or_comm (encodePart y <<< 1) XZ3,
    ← Nat.or_assoc, habs1, Nat.or_comm XZ3 (encodePart y <<< 1)]

theorem key_or_XY3 (x y z : Nat) :
    (((encodePart z <<< 2) ||| (encodePart y <<< 1)) ||| encodePart x) ||| XY3
      = (encodePart z <<< 2) ||| XY3 := by
  have habs1 : (encodePart y <<< 1) ||| XY3 = XY3 :=
    lor_absorb (land_subset_trans (encodePart_shl1_land_Y3 y) (by decide))
  have habs2 : encodePart x ||| XY3 = XY3 :=
    lor_absorb (land_subset_trans (encodePart_land_X3 x) (by decide))
  rw [Nat.or_assoc, Nat.or_assoc, habs2, habs1]

theorem decodePart_congr {a b : Nat} (h : a &&& 0x09249249 = b &&& 0x09249249) :
    decodePart a = decodePart b := by
  simp only [decodePart]
  rw [h]

theorem fromN_congr_x {a b : Nat} (y z : Nat) (h : a % 1024 = b % 1024) :
    fromN a y z = fromN b y z := by
  unfold fromN
  simp only [encodePart_land1023]
  rw [encodePart_eq_mod a, h, ← encodePart_eq_mod b]

theorem getX_fromN (x y z : Nat) : getX (fromN x y z) = x % 1024 := by
  rw [fromN_eq_or]
  unfold getX
  have hc : (((encodePart z <<< 2) ||| (encodePart y <<< 1)) ||| encodePart x) &&& 0x09249249
      = encodePart (x % 1024) &&& 0x09249249 := by
    have h1 := key_land_X3 x y z
    simp only [X3] at h1
    rw [h1, ← encodePart_eq_mod]
    have h2 := encodePart_land_X3 x
    simp only [X3] at h2
    rw [h2]
  rw [decodePart_congr hc, decode_encode (x % 1024) (by omega)]

theorem getY_fromN (x y z : Nat) : getY (fromN x y z) = y % 1024 := by
  rw [fromN_eq_or]
  unfold getY
  have hsh : (((encodePart z <<< 2) ||| (encodePart y <<< 1)) ||| encodePart x) >>> 1
      = (((encodePart z <<< 1) ||| encodePart y) ||| (encodePart x >>> 1)) := by
    rw [shiftRight_lor, shiftRight_lor]
    have hz : (encodePart z <<< 2) >>> 1 = encodePart z <<< 1 := by
      have h2 : encodePart z <<< 2 = (encodePart z <<< 1) <<< 1 := by
        rw [← Nat.shiftLeft_add]
      rw [h2, Nat.shiftLeft_shiftRight]
    have hy : (encodePart y <<< 1) >>> 1 = encodePart y := Nat.shiftLeft_shiftRight _ _
    rw [hz, hy]
  rw [hsh]
  have hzx3 : (encodePart z <<< 1) &&& X3 = 0 :=
    land_eq_zero_of_subset (encodePart_shl1_land_Y3 z) (by decide)
  have hxx3 : (encodePart x >>> 1) &&& X3 = 0 := by
    have hcont : (encodePart x >>> 1) &&& (X3 >>> 1) = encodePart x >>> 1 := by
      rw [land_shiftRight, encodePart_land_X3]
    exact land_eq_zero_of_subset hcont (by decide)
  have hc : (((encodePart z <<< 1) ||| encodePart y) ||| (encodePart x >>> 1)) &&& 0x09249249
      = encodePart (y % 1024) &&& 0x09249249 := by
    have hd : (((encodePart z <<< 1) ||| encodePart y) ||| (encodePart x >>> 1)) &&& X3
        = encodePart y := by
      rw [Nat.and_distrib_right, Nat.and_distrib_right, hzx3, hxx3, encodePart_land_X3]
      simp
    simp only [X3] at hd
    rw [hd, ← encodePart_eq_mod]
    have h2 := encodePart_land_X3 y
    simp only [X3] at h2
    rw [h2]
  rw [decodePart_congr hc, decode_encode (y % 1024) (by omega)]

theorem getZ_fromN (x y z : Nat) : getZ (fromN x y z) = z % 1024 := by
  rw [fromN_eq_or]
  unfold getZ
  have hsh : (((encodePart z <<< 2) ||| (encodePart y <<< 1)) ||| encodePart x) >>> 2
      = ((encodePart z ||| (encodePart y >>> 1)) ||| (encodePart x >>> 2)) := by
    rw [shiftRight_lor, shiftRight_lor]
    have hz : (encodePart z <<< 2) >>> 2 = encodePart z := Nat.shiftLeft_shiftRight _ _
    have hy : (encodePart y <<< 1) >>> 2 = encodePart y >>> 1 := shl1_shr2 _
    rw [hz, hy]
  rw [hsh]
  have hyx3 : (encodePart y >>> 1) &&& X3 = 0 := by
    have hcont : (encodePart y >>> 1) &&& (X3 >>> 1) = encodePart y >>> 1 := by
      rw [land_shiftRight, encodePart_land_X3]
    exact land_eq_zero_of_subset hcont (by decide)
  have hxx3 : (encodePart x >>> 2) &&& X3 = 0 := by
    have hcont : (encodePart x >>> 2) &&& (X3 >>> 2) = encodePart x >>> 2 := by
      rw [land_shiftRight, encodePart_land_X3]
    exact land_eq_zero_of_subset hcont (by decide)
  have hc : ((encodePart z ||| (encodePart y >>> 1)) ||| (encodePart x >>> 2)) &&& 0x09249249
      = encodePart (z % 1024) &&& 0x09249249 := by
    have hd : ((encodePart z ||| (encodePart y >>> 1)) ||| (encodePart x >>> 2)) &&& X3
        = encodePart z := by
      rw [Nat.and_distrib_right, Nat.and_distrib_right, hyx3, hxx3, encodePart_land_X3]
      simp
    simp only [X3] at hd
    rw [hd, ← encodePart_eq_mod]
    have h2 := encodePart_land_X3 z
    simp only [X3] at h2
    rw [h2]
  rw [decodePart_congr hc, decode_encode (z % 1024) (by omega)]

theorem incX_fromN (x y z : Nat) : incX (fromN x y z) = fromN (x + 1) y z := by
  rw [fromN_eq_or x y z]
  unfold incX
  rw [key_or_YZ3, key_land_YZ3]
  rw [encodePart_eq_mod x, incX_core (x % 1024) (by omega)]
  rw [fromN_eq_or (x + 1) y z]
  rw [encodePart_eq_mod (x + 1), show (x + 1) % 1024 = (x % 1024 + 1) % 1024 from by omega]
  rw [Nat.or_comm]

theorem decX_fromN (x y z : Nat) : decX (fromN x y z) = fromN (x + 1023) y z := by
  rw [fromN_eq_or x y z]
  unfold decX
  rw [key_land_X3, key_land_YZ3]
  rw [encodePart_eq_mod x, decX_core (x % 1024) (by omega)]
  rw [fromN_eq_or (x + 1023) y z]
  rw [encodePart_eq_mod (x + 1023),
    show (x + 1023) % 1024 = (x % 1024 + 1023) % 1024 from by omega]
  rw [Nat.or_comm]

theorem incY_fromN (x y z : Nat) : incY (fromN x y z) = fromN x (y + 1) z := by
  rw [fromN_eq_or x y z]
  unfold incY
  rw [key_or_XZ3, key_land_XZ3]
  rw [encodePart_eq_mod y, incY_core (y % 1024) (by omega)]
  rw [fromN_eq_or x (y + 1) z]
  rw [encodePart_eq_mod (y + 1), show (y + 1) % 1024 = (y % 1024 + 1) % 1024 from by omega]
  simp [Nat.or_comm, lor_left_comm, Nat.or_assoc]

theorem decY_fromN (x y z : Nat) : decY (fromN x y z) = fromN x (y + 1023) z := by
  rw [fromN_eq_or x y z]
  unfold decY
  rw [key_land_Y3, key_land_XZ3]
  rw [encodePart_eq_mod y, decY_core (y % 1024) (by omega)]
  rw [fromN_eq_or x (y + 1023) z]
  rw [encodePart_eq_mod (y + 1023),
    show (y + 1023) % 1024 = (y % 1024 + 1023) % 1024 from by omega]
  simp [Nat.or_comm, lor_left_comm, Nat.or_assoc]

theorem incZ_fromN (x y z : Nat) : incZ (fromN x y z) = fromN x y (z + 1) := by
  rw [fromN_eq_or x y z]
  unfold incZ
  rw [key_or_XY3, key_land_XY3]
  rw [encodePart_eq_mod z, incZ_core (z % 1024) (by omega)]
  rw [fromN_eq_or x y (z + 1)]
  rw [encodePart_eq_mod (z + 1), show (z + 1) % 1024 = (z % 1024 + 1) % 1024 from by omega]
  rw [← Nat.or_assoc]

theorem decZ_fromN (x y z : Nat) : decZ (fromN x y z) = fromN x y (z + 1023) := by
  rw [fromN_eq_or x y z]
  unfold decZ
  rw [key_land_Z3, key_land_XY3]
  rw [encodePart_eq_mod z, decZ_core (z % 1024) (by omega)]
  rw [fromN_eq_or x y (z + 1023)]
  rw [encodePart_eq_mod (z + 1023),
    show (z + 1023) % 1024 = (z % 1024 + 1023) % 1024 from by omega]
  rw [← Nat.or_assoc]

theorem fromN_congr_y {a b : Nat} (x z : Nat) (h : a % 1024 = b % 1024) :
    fromN x a z = fromN x b z := by
  unfold fromN
  simp only [encodePart_land1023]
  rw [encodePart_eq_mod a, h, ← encodePart_eq_mod b]

theorem fromN_congr_z {a b : Nat} (x y : Nat) (h : a % 1024 = b % 1024) :
    fromN x y a = fromN x y b := by
  unfold fromN
  simp only [encodePart_land1023]
  rw [encodePart_eq_mod a, h, ← encodePart_eq_mod b]

theorem jsAnd_1023 (x : Int) : jsAnd x 1023 = (x % 1024).toNat := by
  unfold jsAnd toUint32
  have h1 : (x % 4294967296).toNat &&& 1023 = (x % 4294967296).toNat % 1024 := by
    have h := Nat.and_pow_two_sub_one_eq_mod (x % 4294967296).toNat 10
    norm_num at h
    exact h
  rw [h1]
  have hnn : 0 ≤ x % 4294967296 := Int.emod_nonneg x (by norm_num)
  have hdvd : ((1024 : Int)) ∣ 4294967296 := by norm_num
  have h3 : (x % 4294967296) % 1024 = x % 1024 := Int.emod_emod_of_dvd x hdvd
  have h4 : ((x % 4294967296).toNat : Int) = x % 4294967296 := Int.toNat_of_nonneg hnn
  have h5 : 0 ≤ x % 1024 := Int.emod_nonneg x (by norm_num)
  have h6 : ((x % 1024).toNat : Int) = x % 1024 := Int.toNat_of_nonneg h5
  omega

end Morton

/-- Claim C3: MortonKey.from never fails on any integer inputs and encodes
each component wrapped modulo 1024: the x, y, z getters return the inputs
reduced mod 1024; in particular the getters are exact on [0,1023]^3 and
from(-1,0,0).x = 1023, from(1024,0,0).x = 0, from(1027,0,0).x = 3. -/
theorem claim_C3_morton_from_wraps_mod_1024 (x y z : Int) :
    Morton.getX (Morton.fromI x y z) = (x % 1024).toNat ∧
    Morton.getY (Morton.fromI x y z) = (y % 1024).toNat ∧
    Morton.getZ (Morton.fromI x y z) = (z % 1024).toNat ∧
    Morton.getX (Morton.fromI (-1) 0 0) = 1023 ∧
    Morton.getX (Morton.fromI 1024 0 0) = 0 ∧
    Morton.getX (Morton.fromI 1027 0 0) = 3 := by
  unfold Morton.fromI
  rw [Morton.jsAnd_1023 x, Morton.jsAnd_1023 y, Morton.jsAnd_1023 z]
  refine ⟨?_, ?_, ?_, by decide, by decide, by decide⟩
  · rw [Morton.getX_fromN]
    have h1 : x % 1024 < 1024 := Int.emod_lt_of_pos x (by norm_num)
    have h2 : 0 ≤ x % 1024 := Int.emod_nonneg x (by norm_num)
    omega
  · rw [Morton.getY_fromN]
    have h1 : y % 1024 < 1024 := Int.emod_lt_of_pos y (by norm_num)
    have h2 : 0 ≤ y % 1024 := Int.emod_nonneg y (by norm_num)
    omega
  · rw [Morton.getZ_fromN]
    have h1 : z % 1024 < 1024 := Int.emod_lt_of_pos z (by norm_num)
    have h2 : 0 ≤ z % 1024 := Int.emod_nonneg z (by norm_num)
    omega

/-- Claim C4: for every Morton key with axis components in 0..1023, the
single-axis increments and decrements are mutual inverses on all three
axes, including at the wrap boundaries. -/
theorem claim_C4_morton_incdec_inverse (x y z : Nat)
    (hx : x < 1024) (hy : y < 1024) (hz : z < 1024) :
    (Morton.decX (Morton.incX (Morton.fromN x y z)) = Morton.fromN x y z ∧
      Morton.incX (Morton.decX (Morton.fromN x y z)) = Morton.fromN x y z) ∧
    (Morton.decY (Morton.incY (Morton.fromN x y z)) = Morton.fromN x y z ∧
      Morton.incY (Morton.decY (Morton.fromN x y z)) = Morton.fromN x y z) ∧
    (Morton.decZ (Morton.incZ (Morton.fromN x y z)) = Morton.fromN x y z ∧
      Morton.incZ (Morton.decZ (Morton.fromN x y z)) = Morton.fromN x y z) := by
  refine ⟨⟨?_, ?_⟩, ⟨?_, ?_⟩, ⟨?_, ?_⟩⟩
  · rw [Morton.incX_fromN, Morton.decX_fromN]
    exact Morton.fromN_congr_x y z (by omega)
  · rw [Morton.decX_fromN, Morton.incX_fromN]
    exact Morton.fromN_congr_x y z (by omega)
  · rw [Morton.incY_fromN, Morton.decY_fromN]
    exact Morton.fromN_congr_y x z (by omega)
  · rw [Morton.decY_fromN, Morton.incY_fromN]
    exact Morton.fromN_congr_y x z (by omega)
  · rw [Morton.incZ_fromN, Morton.decZ_fromN]
    exact Morton.fromN_congr_z x y (by omega)
  · rw [Morton.decZ_fromN, Morton.incZ_fromN]
    exact Morton.fromN_congr_z x y (by omega)

/-- Witness for claim C4 at a wrap boundary. -/
theorem claim_C4_morton_incdec_inverse_witness :
    (1023 : Nat) < 1024 ∧ (0 : Nat) < 1024 ∧ (5 : Nat) < 1024 ∧
    ((Morton.decX (Morton.incX (Morton.fromN 1023 0 5)) = Morton.fromN 1023 0 5 ∧
      Morton.incX (Morton.decX (Morton.fromN 1023 0 5)) = Morton.fromN 1023 0 5) ∧
    (Morton.decY (Morton.incY (Morton.fromN 1023 0 5)) = Morton.fromN 1023 0 5 ∧
      Morton.incY (Morton.decY (Morton.fromN 1023 0 5)) = Morton.fromN 1023 0 5) ∧
    (Morton.decZ (Morton.incZ (Morton.fromN 1023 0 5)) = Morton.fromN 1023 0 5 ∧
      Morton.incZ (Morton.decZ (Morton.fromN 1023 0 5)) = Morton.fromN 1023 0 5)) :=
  ⟨by norm_num, by norm_num, by norm_num,
    claim_C4_morton_incdec_inverse 1023 0 5 (by norm_num) (by norm_num) (by norm_num)⟩

/-- Claim C8: maskForBits(n) follows 2^n - 1 only for n in 0..31; at n = 32
the JavaScript shift count wraps to 0, so the code returns 0 instead of the
0xFFFFFFFF required by the specification. -/
theorem claim_C8_maskForBits_32_is_zero :
    BitOps.maskForBits 32 = 0 ∧
    (∀ n : Fin 32, BitOps.maskForBits ((n : Nat) : Int) = 2 ^ (n : Nat) - 1) := by
  constructor
  · decide
  · decide

/-- Spec-modelled strict 2D flatten for comparison with the source: the
spec states the bound mask of a two-dimensional flatten should use 2*bits
rather than the 3*bits expression the source reuses from flattenCoord3. -/
def flattenCoord2Spec (x y bits : Int) : Int :=
  jsAndI (jsOrI (jsShl x bits) y) (jsNot (jsShl 4294967295 (bits * 2)))

/-- Claim C9: the source flattenCoord2 masks with 3*bits, so it differs
from the spec's 2*bits mask already at x = 16, y = 0, bits = 4, where the
code yields 256 but a strict 2D flatten yields 0. -/
theorem claim_C9_flattenCoord2_uses_3bits_mask :
    BitOps.flattenCoord2 16 0 4 = 256 ∧ flattenCoord2Spec 16 0 4 = 0 ∧
    BitOps.flattenCoord2 16 0 4 ≠ flattenCoord2Spec 16 0 4 := by
  refine ⟨by decide, by decide, by decide⟩

/-- Embedding of BitArray, the Uint32Array-backed bit vector. Each entry of
`words` stands for one 32-bit word. -/
structure BitArray where
  words : Array Nat
deriving DecidableEq, Repr

/-- Embedding of the BitArray constructor: a nonpositive element count
falls back to a single word. -/
def BitArray.make (elements : Nat) : BitArray :=
  ⟨Array.mkArray (if elements > 0 then elements else 1) 0⟩

/-- Embedding of BitArray.bitAt with both bounds checks of the source. -/
def BitArray.bitAt (a : BitArray) (pos : Int) : Except JSError Nat :=
  if pos < 0 then
    .error (.boundsError "BitArray.bitAt(number) - bit position cannot be negative")
  else
    let p := pos.toNat
    let index := p / 32
    if index ≥ a.words.size then
      .error (.boundsError "BitArray.bitAt(number) - computed index exceeds array length")
    else
      .ok (BitOps.bitAt (a.words.getD index 0) (p % 32))

/-- Embedding of BitArray.setBitAt. -/
def BitArray.setBitAt (a : BitArray) (pos : Int) : Except JSError BitArray :=
  if pos < 0 then
    .error (.boundsError "BitArray.setBitAt(number) - bit position cannot be negative")
  else
    let p := pos.toNat
    let index := p / 32
    if index ≥ a.words.size then
      .error (.boundsError "BitArray.setBitAt(number) - computed index exceeds array length")
    else
      .ok ⟨a.words.setD index (BitOps.setBitAt (a.words.getD index 0) (p % 32))⟩

/-- Embedding of BitArray.unsetBitAt. -/
def BitArray.unsetBitAt (a : BitArray) (pos : Int) : Except JSError BitArray :=
  if pos < 0 then
    .error (.boundsError "BitArray.unsetBitAt(number) - bit position cannot be negative")
  else
    let p := pos.toNat
    let index := p / 32
    if index ≥ a.words.size then
      .error (.boundsError "BitArray.unsetBitAt(number) - computed index exceeds array length")
    else
      .ok ⟨a.words.setD index (BitOps.unsetBitAt (a.words.getD index 0) (p % 32))⟩

/-- Embedding of BitArray.toggleBitAt. -/
def BitArray.toggleBitAt (a : BitArray) (pos : Int) : Except JSError BitArray :=
  if pos < 0 then
    .error (.boundsError "BitArray.toggleBitAt(number) - bit position cannot be negative")
  else
    let p := pos.toNat
    let index := p / 32
    if index ≥ a.words.size then
      .error (.boundsError "BitArray.toggleBitAt(number) - computed index exceeds array length")
    else
      .ok ⟨a.words.setD index (BitOps.toggleBitAt (a.words.getD index 0) (p % 32))⟩

/-- Embedding of BitArray.popCount, the sum of per-word SWAR counts. -/
def BitArray.popCount (a : BitArray) : Nat :=
  (a.words.toList.map BitOps.popCount).sum

namespace VoxelIndex

/-- Embedding of VoxelIndex._Encode on nonnegative component values. -/
def encodeN (x y z u v w : Nat) : Nat :=
  ((x &&& 3) <<< 10) ||| ((y &&& 3) <<< 8) ||| ((z &&& 3) <<< 6) |||
    ((u &&& 3) <<< 4) ||| ((v &&& 3) <<< 2) ||| (w &&& 3)

/-- Embedding of VoxelIndex.from for arbitrary JavaScript integers: each
component passes through (value | 0) & 3. -/
def encodeI (x y z u v w : Int) : Nat :=
  encodeN (toUint32 x) (toUint32 y) (toUint32 z) (toUint32 u) (toUint32 v) (toUint32 w)

/-- Voxel x component (bits 11:10). -/
def vx (k : Nat) : Nat := (k >>> 10) &&& 3

/-- Voxel y component (bits 9:8). -/
def vy (k : Nat) : Nat := (k >>> 8) &&& 3

/-- Voxel z component (bits 7:6). -/
def vz (k : Nat) : Nat := (k >>> 6) &&& 3

/-- BitVoxel x component (bits 5:4), the source's bx getter. -/
def bX (k : Nat) : Nat := (k >>> 4) &&& 3

/-- BitVoxel y component (bits 3:2), the source's by getter. -/
def bY (k : Nat) : Nat := (k >>> 2) &&& 3

/-- BitVoxel z component (bits 1:0), the source's bz getter. -/
def bZ (k : Nat) : Nat := k &&& 3

/-- Voxel key (bits 11:6), the vKey getter. -/
def vKey (k : Nat) : Nat := (k >>> 6) &&& 63

/-- BitVoxel key (bits 5:0), the bKey getter. -/
def bKey (k : Nat) : Nat := k &&& 63

/-- The key setter masks incoming values to 12 bits. -/
def keySet (v : Nat) : Nat := v &&& 4095

theorem encodeN_lt (x y z u v w : Nat) : encodeN x y z u v w < 4096 := by
  unfold encodeN
  have h : ∀ a : Nat, ∀ s : Nat, s ≤ 10 → (a &&& 3) <<< s < 4096 := by
    intro a s hs
    have h3 : a &&& 3 ≤ 3 := Nat.and_le_right
    rw [Nat.shiftLeft_eq]
    have hp : (2 : Nat) ^ s ≤ 2 ^ 10 := Nat.pow_le_pow_right (by norm_num) hs
    calc (a &&& 3) * 2 ^ s ≤ 3 * 2 ^ 10 := Nat.mul_le_mul h3 hp
      _ < 4096 := by norm_num
  have h4096 : (4096 : Nat) = 2 ^ 12 := by norm_num
  rw [h4096]
  refine Nat.or_lt_two_pow (Nat.or_lt_two_pow (Nat.or_lt_two_pow (Nat.or_lt_two_pow
    (Nat.or_lt_two_pow ?_ ?_) ?_) ?_) ?_) ?_
  all_goals rw [← h4096]
  · exact h x 10 (by norm_num)
  · exact h y 8 (by norm_num)
  · exact h z 6 (by norm_num)
  · exact h u 4 (by norm_num)
  · exact h v 2 (by norm_num)
  · have h3 : w &&& 3 ≤ 3 := Nat.and_le_right
    omega

end VoxelIndex

/-- Embedding of BVXLayer, the 4096-bit state layer of one chunk. -/
structure BVXLayer where
  bits : BitArray
deriving DecidableEq, Repr

/-- Embedding of the BVXLayer constructor: 4096 / 32 = 128 words. -/
def BVXLayer.make : BVXLayer := ⟨BitArray.make (4096 / 32)⟩

/-- Embedding of BVXLayer.length, the layer-wide population count. -/
def BVXLayer.length (l : BVXLayer) : Nat := l.bits.popCount

/-- Embedding of BVXLayer.set; the argument is the VoxelIndex key. -/
def BVXLayer.set (l : BVXLayer) (key : Nat) : Except JSError BVXLayer := do
  let b ← l.bits.setBitAt (key : Int)
  pure ⟨b⟩

/-- Embedding of BVXLayer.unset. -/
def BVXLayer.unset (l : BVXLayer) (key : Nat) : Except JSError BVXLayer := do
  let b ← l.bits.unsetBitAt (key : Int)
  pure ⟨b⟩

/-- Embedding of BVXLayer.toggle. -/
def BVXLayer.toggle (l : BVXLayer) (key : Nat) : Except JSError BVXLayer := do
  let b ← l.bits.toggleBitAt (key : Int)
  pure ⟨b⟩

/-- Embedding of BVXLayer.get. -/
def BVXLayer.get (l : BVXLayer) (key : Nat) : Except JSError Nat :=
  l.bits.bitAt (key : Int)

/-- Embedding of BVXLayer.fill: both backing words of the voxel are set to
all ones (JS typed-array stores ignore out-of-bounds indices). -/
def BVXLayer.fill (l : BVXLayer) (key : Nat) : BVXLayer :=
  let vxIndex := VoxelIndex.vKey key * 2
  ⟨⟨(l.bits.words.setD vxIndex 0xFFFFFFFF).setD (vxIndex + 1) 0xFFFFFFFF⟩⟩

/-- Embedding of BVXLayer.empty. -/
def BVXLayer.empty (l : BVXLayer) (key : Nat) : BVXLayer :=
  let vxIndex := VoxelIndex.vKey key * 2
  ⟨⟨(l.bits.words.setD vxIndex 0).setD (vxIndex + 1) 0⟩⟩

/-- Embedding of BVXLayer.count, the per-voxel population count. -/
def BVXLayer.count (l : BVXLayer) (key : Nat) : Nat :=
  let vxIndex := VoxelIndex.vKey key * 2
  BitOps.popCount (l.bits.words.getD vxIndex 0)
    + BitOps.popCount (l.bits.words.getD (vxIndex + 1) 0)

/-- Unchecked single-bit read used to state what the checked read returns. -/
def BVXLayer.getCore (l : BVXLayer) (k : Nat) : Nat :=
  BitOps.bitAt (l.bits.words.getD (k / 32) 0) (k % 32)

/-- Unchecked single-bit set used to build concrete layers in statements. -/
def BVXLayer.setCore (l : BVXLayer) (k : Nat) : BVXLayer :=
  ⟨⟨l.bits.words.setD (k / 32) (BitOps.setBitAt (l.bits.words.getD (k / 32) 0) (k % 32))⟩⟩

theorem BVXLayer.get_eq_core (l : BVXLayer) (k : Nat) (hk : k < 4096)
    (hs : l.bits.words.size = 128) : l.get k = .ok (l.getCore k) := by
  unfold BVXLayer.get BitArray.bitAt BVXLayer.getCore
  rw [if_neg (by omega)]
  simp only [Int.toNat_natCast]
  rw [if_neg (by omega)]

theorem BVXLayer.set_eq_core (l : BVXLayer) (k : Nat) (hk : k < 4096)
    (hs : l.bits.words.size = 128) : l.set k = .ok (l.setCore k) := by
  unfold BVXLayer.set BitArray.setBitAt BVXLayer.setCore
  rw [if_neg (by omega)]
  simp only [Int.toNat_natCast]
  rw [if_neg (by omega)]
  rfl

/-- Embedding of VoxelChunk: one Morton key plus one BVXLayer (metadata is
variant specific and modelled separately). -/
structure VoxelChunk where
  key : Nat
  layer : BVXLayer
deriving DecidableEq, Repr

/-- Embedding of VoxelChunk.getBitVoxel. -/
def VoxelChunk.getBitVoxel (c : VoxelChunk) (k : Nat) : Except JSError Nat :=
  c.layer.get k

/-- Embedding of VoxelChunk.setBitVoxel. -/
def VoxelChunk.setBitVoxel (c : VoxelChunk) (k : Nat) : Except JSError VoxelChunk := do
  let l ← c.layer.set k
  pure ⟨c.key, l⟩

/-- JavaScript ToUint16, the truncation applied by Uint16Array stores. -/
def toUint16 (m : Int) : Nat := (m % 65536).toNat

/-- Embedding of the VoxelChunk32 metadata store: the source backs 64
voxels with a 256-byte buffer but views it as a Uint16Array of length 128
and indexes it by vKey. -/
structure Chunk32Meta where
  data : Array Nat
deriving DecidableEq, Repr

/-- Embedding of the VoxelChunk32 constructor's metadata buffer. -/
def Chunk32Meta.make : Chunk32Meta := ⟨Array.mkArray 128 0⟩

/-- Embedding of VoxelChunk32.setMetaData: the Uint16Array store keeps only
the low 16 bits of the value. -/
def Chunk32Meta.setMetaData (md : Chunk32Meta) (key : Nat) (meta : Int) : Chunk32Meta :=
  ⟨md.data.setD (VoxelIndex.vKey key) (toUint16 meta)⟩

/-- Embedding of VoxelChunk32.getMetaData. -/
def Chunk32Meta.getMetaData (md : Chunk32Meta) (key : Nat) : Nat :=
  md.data.getD (VoxelIndex.vKey key) 0

/-- Embedding of HashGrid with the sparse JS bucket array modelled as a
total function from bucket index to bucket list. -/
structure HashGrid (V : Type) where
  size : Nat
  dict : Nat → List (Nat × V)

/-- Embedding of the HashGrid constructor with its default-size fallback. -/
def HashGrid.make (V : Type) (buckets : Nat) : HashGrid V :=
  ⟨if buckets > 0 then buckets else 1024, fun _ => []⟩

/-- Embedding of HashGrid.get: linear scan of the key's bucket. -/
def HashGrid.get {V : Type} (g : HashGrid V) (key : Nat) : Option V :=
  ((g.dict (key % g.size)).find? (fun n => n.1 == key)).map Prod.snd

/-- Embedding of HashGrid.set: overwrite the matching node or append. -/
def HashGrid.set {V : Type} (g : HashGrid V) (key : Nat) (value : V) : HashGrid V :=
  let bk := key % g.size
  let bucket := g.dict bk
  let newBucket :=
    if ((bucket.find? (fun n => n.1 == key)).isSome) then
      bucket.map (fun n => if n.1 == key then (n.1, value) else n)
    else
      bucket ++ [(key, value)]
  ⟨g.size, fun i => if i = bk then newBucket else g.dict i⟩

/-- Embedding of VoxelWorld: the chunk grid (the raycaster is modelled
separately). -/
structure VoxelWorld where
  chunks : HashGrid VoxelChunk

/-- Embedding of the VoxelWorld constructor (1024 buckets). -/
def VoxelWorld.make : VoxelWorld := ⟨HashGrid.make VoxelChunk 1024⟩

/-- Embedding of VoxelWorld.get. -/
def VoxelWorld.get (w : VoxelWorld) (key : Nat) : Option VoxelChunk :=
  w.chunks.get key

/-- Embedding of VoxelWorld.getOpt. -/
def VoxelWorld.getOpt (w : VoxelWorld) (key : Nat) (optret : VoxelChunk) : VoxelChunk :=
  match w.get key with
  | none => optret
  | some c => c

/-- Embedding of VoxelWorld.insert. -/
def VoxelWorld.insert (w : VoxelWorld) (c : VoxelChunk) : VoxelWorld :=
  ⟨w.chunks.set c.key c⟩

/-- Unchecked single-bit clear, the value produced by the checked op. -/
def BVXLayer.unsetCore (l : BVXLayer) (k : Nat) : BVXLayer :=
  ⟨⟨l.bits.words.setD (k / 32) (BitOps.unsetBitAt (l.bits.words.getD (k / 32) 0) (k % 32))⟩⟩

/-- Unchecked single-bit toggle, the value produced by the checked op. -/
def BVXLayer.toggleCore (l : BVXLayer) (k : Nat) : BVXLayer :=
  ⟨⟨l.bits.words.setD (k / 32) (BitOps.toggleBitAt (l.bits.words.getD (k / 32) 0) (k % 32))⟩⟩

theorem BVXLayer.unset_eq_core (l : BVXLayer) (k : Nat) (hk : k < 4096)
    (hs : l.bits.words.size = 128) : l.unset k = .ok (l.unsetCore k) := by
  unfold BVXLayer.unset BitArray.unsetBitAt BVXLayer.unsetCore
  rw [if_neg (by omega)]
  simp only [Int.toNat_natCast]
  rw [if_neg (by omega)]
  rfl

theorem BVXLayer.toggle_eq_core (l : BVXLayer) (k : Nat) (hk : k < 4096)
    (hs : l.bits.words.size = 128) : l.toggle k = .ok (l.toggleCore k) := by
  unfold BVXLayer.toggle BitArray.toggleBitAt BVXLayer.toggleCore
  rw [if_neg (by omega)]
  simp only [Int.toNat_natCast]
  rw [if_neg (by omega)]
  rfl

/-- Claim C10: every VoxelIndex produced by VoxelIndex.from has a key below
4096, so on the 128-word layer every bit operation succeeds (the BitArray
error branches are unreachable) and the word pair addressed by fill, empty
and count lies strictly below the backing length. -/
theorem claim_C10_layer_ops_never_raise (x y z u v w : Int) (l : BVXLayer)
    (hwf : l.bits.words.size = 128) :
    (∃ l', l.set (VoxelIndex.encodeI x y z u v w) = .ok l') ∧
    (∃ l', l.unset (VoxelIndex.encodeI x y z u v w) = .ok l') ∧
    (∃ l', l.toggle (VoxelIndex.encodeI x y z u v w) = .ok l') ∧
    (∃ b, l.get (VoxelIndex.encodeI x y z u v w) = .ok b) ∧
    2 * VoxelIndex.vKey (VoxelIndex.encodeI x y z u v w) + 1 < 128 := by
  have hk : VoxelIndex.encodeI x y z u v w < 4096 := VoxelIndex.encodeN_lt _ _ _ _ _ _
  refine ⟨⟨_, BVXLayer.set_eq_core l _ hk hwf⟩, ⟨_, BVXLayer.unset_eq_core l _ hk hwf⟩,
    ⟨_, BVXLayer.toggle_eq_core l _ hk hwf⟩, ⟨_, BVXLayer.get_eq_core l _ hk hwf⟩, ?_⟩
  have hv : VoxelIndex.vKey (VoxelIndex.encodeI x y z u v w) ≤ 63 := Nat.and_le_right
  omega

/-- Witness for claim C10 on a fresh layer and wrapping component inputs. -/
theorem claim_C10_layer_ops_never_raise_witness :
    BVXLayer.make.bits.words.size = 128 ∧
    ((∃ l', BVXLayer.make.set (VoxelIndex.encodeI 5 (-3) 7 0 2 9) = .ok l') ∧
    (∃ l', BVXLayer.make.unset (VoxelIndex.encodeI 5 (-3) 7 0 2 9) = .ok l') ∧
    (∃ l', BVXLayer.make.toggle (VoxelIndex.encodeI 5 (-3) 7 0 2 9) = .ok l') ∧
    (∃ b, BVXLayer.make.get (VoxelIndex.encodeI 5 (-3) 7 0 2 9) = .ok b) ∧
    2 * VoxelIndex.vKey (VoxelIndex.encodeI 5 (-3) 7 0 2 9) + 1 < 128) :=
  ⟨by decide, claim_C10_layer_ops_never_raise 5 (-3) 7 0 2 9 BVXLayer.make (by decide)⟩

theorem arr_getD_setD (a : Array Nat) (i j v : Nat) :
    (a.setD i v).getD j 0 = if j = i ∧ i < a.size then v else a.getD j 0 := by
  simp only [Array.getD_eq_get?]
  unfold Array.setD
  by_cases h : i < a.size
  · simp only [dif_pos h]
    by_cases hj : j = i
    · subst hj
      rw [Array.getElem?_set_eq]
      simp [h]
    · rw [Array.getElem?_set_ne a ⟨i, h⟩ v (by simpa using Ne.symm hj)]
      simp [hj]
  · simp only [dif_neg h]
    have hni : ¬ (j = i ∧ i < a.size) := by tauto
    simp [hni]

theorem arr_getD_mkArray (n i v : Nat) :
    (Array.mkArray n v).getD i 0 = if i < n then v else 0 := by
  simp only [Array.getD_eq_get?, Array.getElem?_mkArray]
  by_cases h : i < n <;> simp [h]

/-- Embedding of VoxelGeometry.popCount over a face-mask buffer: the sum of
the per-entry SWAR counts. -/
def popCountBuf (F : Array Nat) : Nat := (F.toList.map BitOps.popCount).sum

/-- One write of the index expander's inner loop: stores the offset index
at the cursor and advances it (out-of-bounds stores are dropped, as for a
JS typed array). -/
def pushIndex (index : Nat) (st : Array Nat × Nat) (cv : Nat) : Array Nat × Nat :=
  (st.1.setD st.2 (cv + index * 24), st.2 + 1)

/-- One entry of the index expander's outer loop over the face buffer. -/
def expandEntry (F : Array Nat) (renderable : Nat → List Nat) (st : Array Nat × Nat)
    (index : Nat) : Array Nat × Nat :=
  let gi := F.getD index 0
  if gi = 0 then st
  else (renderable gi).foldl (pushIndex index) st

/-- Embedding of BVXGeometry.getIndices, parameterised by the two index
lookup tables the renderer supplies. -/
def getIndices (F : Array Nat) (flipped : Bool) (lut lutFlipped : Nat → List Nat)
    (optres : Option (Array Nat)) : Except JSError (Array Nat) :=
  let numberOfFaces := popCountBuf F
  let numberOfIndices := numberOfFaces * 6
  let result := match optres with
    | some r => r
    | none => Array.mkArray numberOfIndices 0
  if result.size ≠ numberOfIndices then
    .error (.rangeError
      ("BVXGeometry.getIndices() - optional parameter does not have a valid length, expected "
        ++ toString numberOfIndices ++ " but was " ++ toString result.size))
  else
    let renderableIndices := if flipped then lutFlipped else lut
    .ok ((List.range F.size).foldl (expandEntry F renderableIndices) (result, 0)).1

theorem pushIndex_size (index : Nat) (st : Array Nat × Nat) (cv : Nat) :
    ((pushIndex index st cv).1).size = st.1.size := by
  simp [pushIndex]

theorem foldl_pushIndex_size (index : Nat) :
    ∀ (cfg : List Nat) (st : Array Nat × Nat),
      ((cfg.foldl (pushIndex index) st).1).size = st.1.size := by
  intro cfg
  induction cfg with
  | nil => intro st; rfl
  | cons c cs ih =>
    intro st
    rw [List.foldl_cons, ih, pushIndex_size]

theorem expandEntry_size (F : Array Nat) (renderable : Nat → List Nat) :
    ∀ (xs : List Nat) (st : Array Nat × Nat),
      ((xs.foldl (expandEntry F renderable) st).1).size = st.1.size := by
  intro xs
  induction xs with
  | nil => intro st; rfl
  | cons x rest ih =>
    intro st
    rw [List.foldl_cons, ih]
    unfold expandEntry
    by_cases h : F.getD x 0 = 0
    · rw [if_pos h]
    · rw [if_neg h, foldl_pushIndex_size]

/-- Claim C5: for a 4096-entry face buffer of 6-bit masks and index LUTs
whose entry for mask m holds 6*popcount(m) indices, getIndices returns a
buffer of length 6 * popcount(F) for either winding, and a caller-supplied
output of any other length makes the call fail with the RangeError. -/
theorem claim_C5_getIndices_length_law (F : Array Nat) (lut lutF : Nat → List Nat)
    (flipped : Bool) (hsize : F.size = 4096)
    (hvals : ∀ i, i < 4096 → F.getD i 0 < 64)
    (hlut : ∀ m, m < 64 → (lut m).length = 6 * BitOps.popCount m)
    (hlutF : ∀ m, m < 64 → (lutF m).length = 6 * BitOps.popCount m) :
    (∃ r, getIndices F flipped lut lutF none = .ok r ∧ r.size = 6 * popCountBuf F) ∧
    (∀ out : Array Nat, out.size ≠ 6 * popCountBuf F →
      ∃ msg, getIndices F flipped lut lutF (some out) = .error (.rangeError msg)) := by
  constructor
  · refine ⟨((List.range F.size).foldl
      (expandEntry F (if flipped then lutF else lut)) (Array.mkArray (popCountBuf F * 6) 0, 0)).1,
      ?_, ?_⟩
    · unfold getIndices
      rw [if_neg (by simp)]
    · rw [expandEntry_size]
      simp [Nat.mul_comm]
  · intro out hout
    unfold getIndices
    rw [if_pos (by simpa [Nat.mul_comm] using hout)]
    exact ⟨_, rfl⟩

/-- Witness for claim C5 on the empty face buffer with replicate LUTs. -/
theorem claim_C5_getIndices_length_law_witness :
    (Array.mkArray 4096 0 : Array Nat).size = 4096 ∧
    (∀ i, i < 4096 → (Array.mkArray 4096 0 : Array Nat).getD i 0 < 64) ∧
    (∀ m, m < 64 →
      ((fun m => List.replicate (6 * BitOps.popCount m) 0) m).length = 6 * BitOps.popCount m) ∧
    ((∃ r, getIndices (Array.mkArray 4096 0) true
        (fun m => List.replicate (6 * BitOps.popCount m) 0)
        (fun m => List.replicate (6 * BitOps.popCount m) 0) none = .ok r ∧
      r.size = 6 * popCountBuf (Array.mkArray 4096 0)) ∧
    (∀ out : Array Nat, out.size ≠ 6 * popCountBuf (Array.mkArray 4096 0) →
      ∃ msg, getIndices (Array.mkArray 4096 0) true
        (fun m => List.replicate (6 * BitOps.popCount m) 0)
        (fun m => List.replicate (6 * BitOps.popCount m) 0) (some out)
          = .error (.rangeError msg))) :=
  ⟨by simp, by
      intro i hi
      rw [arr_getD_mkArray]
      by_cases h : i < 4096 <;> simp [h],
    by
      intro m hm
      simp,
    claim_C5_getIndices_length_law (Array.mkArray 4096 0) _ _ true (by simp)
      (by
        intro i hi
        rw [arr_getD_mkArray]
        by_cases h : i < 4096 <;> simp [h])
      (by
        intro m hm
        simp)
      (by
        intro m hm
        simp)⟩

/-- Claim C7: VoxelChunk32 stores metadata through a Uint16Array view, so a
32-bit value is truncated mod 2^16: writing 65536 reads back 0, not 65536
as the claim (and the class documentation) requires; low 16-bit values do
round-trip. -/
theorem claim_C7_chunk32_metadata_truncated_to_16_bits :
    Chunk32Meta.getMetaData
      (Chunk32Meta.setMetaData Chunk32Meta.make (VoxelIndex.encodeN 1 2 3 0 1 2) 65536)
      (VoxelIndex.encodeN 1 2 3 0 1 2) = 0 ∧
    Chunk32Meta.getMetaData
      (Chunk32Meta.setMetaData Chunk32Meta.make (VoxelIndex.encodeN 1 2 3 0 1 2) 7)
      (VoxelIndex.encodeN 1 2 3 0 1 2) = 7 := by
  constructor
  · decide
  · decide

section FaceSolver

/-- Value of the JavaScript (~state) & 1 used by the face solver. -/
def invBit (b : Nat) : Nat := 1 - (b &&& 1)

/-- The face-bit combination step of computeIndices: six setBit calls on
the entry's previous value, masked to 6 bits on store. -/
def faceMaskFrom (g0 bxp bxn byp byn bzp bzn : Nat) : Nat :=
  let g1 := BitOps.setBit g0 0 (invBit bxp)
  let g2 := BitOps.setBit g1 1 (invBit bxn)
  let g3 := BitOps.setBit g2 2 (invBit byp)
  let g4 := BitOps.setBit g3 3 (invBit byn)
  let g5 := BitOps.setBit g4 4 (invBit bzp)
  let g6 := BitOps.setBit g5 5 (invBit bzn)
  g6 &&& 63

/-- Embedding of VoxelFaceGeometry._GetBitVoxelXP. -/
def getBitVoxelXP (idx : Nat) (c next : VoxelChunk) : Except JSError Nat :=
  let vt := VoxelIndex.vx idx
  let bt := VoxelIndex.bX idx + 1
  if bt > 3 then
    let vt2 := vt + 1
    if vt2 > 3 then
      next.getBitVoxel (VoxelIndex.encodeN 0 (VoxelIndex.vy idx) (VoxelIndex.vz idx)
        0 (VoxelIndex.bY idx) (VoxelIndex.bZ idx))
    else
      c.getBitVoxel (VoxelIndex.encodeN vt2 (VoxelIndex.vy idx) (VoxelIndex.vz idx)
        0 (VoxelIndex.bY idx) (VoxelIndex.bZ idx))
  else
    c.getBitVoxel (VoxelIndex.encodeN vt (VoxelIndex.vy idx) (VoxelIndex.vz idx)
      bt (VoxelIndex.bY idx) (VoxelIndex.bZ idx))

/-- Embedding of VoxelFaceGeometry._GetBitVoxelXN; the decrements pass
through JavaScript numbers, hence the Int intermediates. -/
def getBitVoxelXN (idx : Nat) (c next : VoxelChunk) : Except JSError Nat :=
  let vt : Int := VoxelIndex.vx idx
  let bt : Int := (VoxelIndex.bX idx : Int) - 1
  if bt < 0 then
    let vt2 := vt - 1
    if vt2 < 0 then
      next.getBitVoxel (VoxelIndex.encodeI 3 (VoxelIndex.vy idx) (VoxelIndex.vz idx)
        3 (VoxelIndex.bY idx) (VoxelIndex.bZ idx))
    else
      c.getBitVoxel (VoxelIndex.encodeI vt2 (VoxelIndex.vy idx) (VoxelIndex.vz idx)
        3 (VoxelIndex.bY idx) (VoxelIndex.bZ idx))
  else
    c.getBitVoxel (VoxelIndex.encodeI vt (VoxelIndex.vy idx) (VoxelIndex.vz idx)
      bt (VoxelIndex.bY idx) (VoxelIndex.bZ idx))

/-- Embedding of VoxelFaceGeometry._GetBitVoxelYP. -/
def getBitVoxelYP (idx : Nat) (c next : VoxelChunk) : Except JSError Nat :=
  let vt := VoxelIndex.vy idx
  let bt := VoxelIndex.bY idx + 1
  if bt > 3 then
    let vt2 := vt + 1
    if vt2 > 3 then
      next.getBitVoxel (VoxelIndex.encodeN (VoxelIndex.vx idx) 0 (VoxelIndex.vz idx)
        (VoxelIndex.bX idx) 0 (VoxelIndex.bZ idx))
    else
      c.getBitVoxel (VoxelIndex.encodeN (VoxelIndex.vx idx) vt2 (VoxelIndex.vz idx)
        (VoxelIndex.bX idx) 0 (VoxelIndex.bZ idx))
  else
    c.getBitVoxel (VoxelIndex.encodeN (VoxelIndex.vx idx) vt (VoxelIndex.vz idx)
      (VoxelIndex.bX idx) bt (VoxelIndex.bZ idx))

/-- Embedding of VoxelFaceGeometry._GetBitVoxelYN. -/
def getBitVoxelYN (idx : Nat) (c next : VoxelChunk) : Except JSError Nat :=
  let vt : Int := VoxelIndex.vy idx
  let bt : Int := (VoxelIndex.bY idx : Int) - 1
  if bt < 0 then
    let vt2 := vt - 1
    if vt2 < 0 then
      next.getBitVoxel (VoxelIndex.encodeI (VoxelIndex.vx idx) 3 (VoxelIndex.vz idx)
        (VoxelIndex.bX idx) 3 (VoxelIndex.bZ idx))
    else
      c.getBitVoxel (VoxelIndex.encodeI (VoxelIndex.vx idx) vt2 (VoxelIndex.vz idx)
        (VoxelIndex.bX idx) 3 (VoxelIndex.bZ idx))
  else
    c.getBitVoxel (VoxelIndex.encodeI (VoxelIndex.vx idx) vt (VoxelIndex.vz idx)
      (VoxelIndex.bX idx) bt (VoxelIndex.bZ idx))

/-- Embedding of VoxelFaceGeometry._GetBitVoxelZP. -/
def getBitVoxelZP (idx : Nat) (c next : VoxelChunk) : Except JSError Nat :=
  let vt := VoxelIndex.vz idx
  let bt := VoxelIndex.bZ idx + 1
  if bt > 3 then
    let vt2 := vt + 1
    if vt2 > 3 then
      next.getBitVoxel (VoxelIndex.encodeN (VoxelIndex.vx idx) (VoxelIndex.vy idx) 0
        (VoxelIndex.bX idx) (VoxelIndex.bY idx) 0)
    else
      c.getBitVoxel (VoxelIndex.encodeN (VoxelIndex.vx idx) (VoxelIndex.vy idx) vt2
        (VoxelIndex.bX idx) (VoxelIndex.bY idx) 0)
  else
    c.getBitVoxel (VoxelIndex.encodeN (VoxelIndex.vx idx) (VoxelIndex.vy idx) vt
      (VoxelIndex.bX idx) (VoxelIndex.bY idx) bt)

/-- Embedding of VoxelFaceGeometry._GetBitVoxelZN. -/
def getBitVoxelZN (idx : Nat) (c next : VoxelChunk) : Except JSError Nat :=
  let vt : Int := VoxelIndex.vz idx
  let bt : Int := (VoxelIndex.bZ idx : Int) - 1
  if bt < 0 then
    let vt2 := vt - 1
    if vt2 < 0 then
      next.getBitVoxel (VoxelIndex.encodeI (VoxelIndex.vx idx) (VoxelIndex.vy idx) 3
        (VoxelIndex.bX idx) (VoxelIndex.bY idx) 3)
    else
      c.getBitVoxel (VoxelIndex.encodeI (VoxelIndex.vx idx) (VoxelIndex.vy idx) vt2
        (VoxelIndex.bX idx) (VoxelIndex.bY idx) 3)
  else
    c.getBitVoxel (VoxelIndex.encodeI (VoxelIndex.vx idx) (VoxelIndex.vy idx) vt
      (VoxelIndex.bX idx) (VoxelIndex.bY idx) bt)

/-- The 16-space x coordinate of a VoxelIndex key. -/
def pX (k : Nat) : Nat := 4 * VoxelIndex.vx k + VoxelIndex.bX k

/-- The 16-space y coordinate of a VoxelIndex key. -/
def pY (k : Nat) : Nat := 4 * VoxelIndex.vy k + VoxelIndex.bY k

/-- The 16-space z coordinate of a VoxelIndex key. -/
def pZ (k : Nat) : Nat := 4 * VoxelIndex.vz k + VoxelIndex.bZ k

/-- VoxelIndex key of a 16-space position. -/
def pos16 (X Y Z : Nat) : Nat :=
  VoxelIndex.encodeN (X / 4) (Y / 4) (Z / 4) (X % 4) (Y % 4) (Z % 4)

/-- Pure semantics of the +x neighbour read. -/
def readXP (cb nb : Nat → Nat) (k : Nat) : Nat :=
  if pX k + 1 ≤ 15 then cb (pos16 (pX k + 1) (pY k) (pZ k)) else nb (pos16 0 (pY k) (pZ k))

/-- Pure semantics of the -x neighbour read. -/
def readXN (cb nb : Nat → Nat) (k : Nat) : Nat :=
  if 1 ≤ pX k then cb (pos16 (pX k - 1) (pY k) (pZ k)) else nb (pos16 15 (pY k) (pZ k))

/-- Pure semantics of the +y neighbour read. -/
def readYP (cb nb : Nat → Nat) (k : Nat) : Nat :=
  if pY k + 1 ≤ 15 then cb (pos16 (pX k) (pY k + 1) (pZ k)) else nb (pos16 (pX k) 0 (pZ k))

/-- Pure semantics of the -y neighbour read. -/
def readYN (cb nb : Nat → Nat) (k : Nat) : Nat :=
  if 1 ≤ pY k then cb (pos16 (pX k) (pY k - 1) (pZ k)) else nb (pos16 (pX k) 15 (pZ k))

/-- Pure semantics of the +z neighbour read. -/
def readZP (cb nb : Nat → Nat) (k : Nat) : Nat :=
  if pZ k + 1 ≤ 15 then cb (pos16 (pX k) (pY k) (pZ k + 1)) else nb (pos16 (pX k) (pY k) 0)

/-- Pure semantics of the -z neighbour read. -/
def readZN (cb nb : Nat → Nat) (k : Nat) : Nat :=
  if 1 ≤ pZ k then cb (pos16 (pX k) (pY k) (pZ k - 1)) else nb (pos16 (pX k) (pY k) 15)

/-- One iteration of the computeIndices loop at a given buffer index. -/
def computeStep (center xp xn yp yn zp zn : VoxelChunk) (buf : Array Nat) (index : Nat) :
    Except JSError (Array Nat) := do
  let vic := VoxelIndex.keySet index
  let bvState ← center.getBitVoxel vic
  if bvState = 0 then
    pure buf
  else do
    let g0 := buf.getD index 0
    let bvxp ← getBitVoxelXP vic center xp
    let bvxn ← getBitVoxelXN vic center xn
    let bvyp ← getBitVoxelYP vic center yp
    let bvyn ← getBitVoxelYN vic center yn
    let bvzp ← getBitVoxelZP vic center zp
    let bvzn ← getBitVoxelZN vic center zn
    pure (buf.setD index (faceMaskFrom g0 bvxp bvxn bvyp bvyn bvzp bvzn))

/-- The computeIndices loop, iterated from index 0 upward. -/
def computeLoop (center xp xn yp yn zp zn : VoxelChunk) :
    Nat → Array Nat → Except JSError (Array Nat)
  | 0, buf => pure buf
  | n + 1, buf => do
      let buf2 ← computeLoop center xp xn yp yn zp zn n buf
      computeStep center xp xn yp yn zp zn buf2 n

/-- The all-zero placeholder chunk substituted for absent neighbours
(VoxelFaceGeometry.TMP_CHUNK). -/
def zeroChunk : VoxelChunk := ⟨0, BVXLayer.make⟩

/-- Embedding of VoxelFaceGeometry.computeIndices: reset, empty-chunk early
exit, six neighbour lookups with the zero-chunk default, then the loop over
all 4096 bitvoxels. -/
def computeIndices (center : VoxelChunk) (world : VoxelWorld) :
    Except JSError (Array Nat) :=
  let buf0 := Array.mkArray 4096 0
  if center.layer.length ≤ 0 then .ok buf0
  else
    let xp := world.getOpt (Morton.incX center.key) zeroChunk
    let xn := world.getOpt (Morton.decX center.key) zeroChunk
    let yp := world.getOpt (Morton.incY center.key) zeroChunk
    let yn := world.getOpt (Morton.decY center.key) zeroChunk
    let zp := world.getOpt (Morton.incZ center.key) zeroChunk
    let zn := world.getOpt (Morton.decZ center.key) zeroChunk
    computeLoop center xp xn yp yn zp zn 4096 buf0

/-- The mask computeIndices writes for a set bitvoxel whose entry was still
zero, expressed through the pure neighbour reads. -/
def cellMask (c xp xn yp yn zp zn : VoxelChunk) (k : Nat) : Nat :=
  faceMaskFrom 0
    (readXP c.layer.getCore xp.layer.getCore k)
    (readXN c.layer.getCore xn.layer.getCore k)
    (readYP c.layer.getCore yp.layer.getCore k)
    (readYN c.layer.getCore yn.layer.getCore k)
    (readZP c.layer.getCore zp.layer.getCore k)
    (readZN c.layer.getCore zn.layer.getCore k)

theorem keySet_small {k : Nat} (hk : k < 4096) : VoxelIndex.keySet k = k := by
  have h := Nat.and_pow_two_sub_one_of_lt_two_pow (show k < 2 ^ 12 from by omega)
  simpa using h

theorem toUint32_natCast (n : Nat) : toUint32 (n : Int) = n % 4294967296 := by
  unfold toUint32
  omega

theorem encodeI_natCast (a b c d e f : Nat) (ha : a < 4294967296) (hb : b < 4294967296)
    (hc : c < 4294967296) (hd : d < 4294967296) (he : e < 4294967296)
    (hf : f < 4294967296) :
    VoxelIndex.encodeI (a : Int) (b : Int) (c : Int) (d : Int) (e : Int) (f : Int)
      = VoxelIndex.encodeN a b c d e f := by
  unfold VoxelIndex.encodeI
  rw [toUint32_natCast, toUint32_natCast, toUint32_natCast, toUint32_natCast,
    toUint32_natCast, toUint32_natCast,
    Nat.mod_eq_of_lt ha, Nat.mod_eq_of_lt hb, Nat.mod_eq_of_lt hc,
    Nat.mod_eq_of_lt hd, Nat.mod_eq_of_lt he, Nat.mod_eq_of_lt hf]

theorem getBitVoxelXP_eq (k : Nat) (c next : VoxelChunk)
    (hc : c.layer.bits.words.size = 128) (hn : next.layer.bits.words.size = 128) :
    getBitVoxelXP k c next = .ok (readXP c.layer.getCore next.layer.getCore k) := by
  have hvx : VoxelIndex.vx k ≤ 3 := Nat.and_le_right
  have hbx : VoxelIndex.bX k ≤ 3 := Nat.and_le_right
  have hvy : VoxelIndex.vy k ≤ 3 := Nat.and_le_right
  have hby : VoxelIndex.bY k ≤ 3 := Nat.and_le_right
  have hvz : VoxelIndex.vz k ≤ 3 := Nat.and_le_right
  have hbz : VoxelIndex.bZ k ≤ 3 := Nat.and_le_right
  have e3 : pY k / 4 = VoxelIndex.vy k := by unfold pY; omega
  have e4 : pY k % 4 = VoxelIndex.bY k := by unfold pY; omega
  have e5 : pZ k / 4 = VoxelIndex.vz k := by unfold pZ; omega
  have e6 : pZ k % 4 = VoxelIndex.bZ k := by unfold pZ; omega
  simp only [getBitVoxelXP, readXP]
  by_cases h1 : VoxelIndex.bX k + 1 > 3
  · rw [if_pos h1]
    by_cases h2 : VoxelIndex.vx k + 1 > 3
    · rw [if_pos h2, if_neg (show ¬ (pX k + 1 ≤ 15) from by unfold pX; omega)]
      unfold pos16
      rw [Nat.zero_div, Nat.zero_mod, e3, e4, e5, e6]
      exact BVXLayer.get_eq_core _ _ (VoxelIndex.encodeN_lt _ _ _ _ _ _) hn
    · rw [if_neg h2, if_pos (show pX k + 1 ≤ 15 from by unfold pX; omega)]
      have e1 : (pX k + 1) / 4 = VoxelIndex.vx k + 1 := by unfold pX; omega
      have e2 : (pX k + 1) % 4 = 0 := by unfold pX; omega
      unfold pos16
      rw [e1, e2, e3, e4, e5, e6]
      exact BVXLayer.get_eq_core _ _ (VoxelIndex.encodeN_lt _ _ _ _ _ _) hc
  · rw [if_neg h1, if_pos (show pX k + 1 ≤ 15 from by unfold pX; omega)]
    have e1 : (pX k + 1) / 4 = VoxelIndex.vx k := by unfold pX; omega
    have e2 : (pX k + 1) % 4 = VoxelIndex.bX k + 1 := by unfold pX; omega
    unfold pos16
    rw [e1, e2, e3, e4, e5, e6]
    exact BVXLayer.get_eq_core _ _ (VoxelIndex.encodeN_lt _ _ _ _ _ _) hc

theorem getBitVoxelXN_eq (k : Nat) (c next : VoxelChunk)
    (hc : c.layer.bits.words.size = 128) (hn : next.layer.bits.words.size = 128) :
    getBitVoxelXN k c next = .ok (readXN c.layer.getCore next.layer.getCore k) := by
  have hvx : VoxelIndex.vx k ≤ 3 := Nat.and_le_right
  have hbx : VoxelIndex.bX k ≤ 3 := Nat.and_le_right
  have hvy : VoxelIndex.vy k ≤ 3 := Nat.and_le_right
  have hby : VoxelIndex.bY k ≤ 3 := Nat.and_le_right
  have hvz : VoxelIndex.vz k ≤ 3 := Nat.and_le_right
  have hbz : VoxelIndex.bZ k ≤ 3 := Nat.and_le_right
  have e3 : pY k / 4 = VoxelIndex.vy k := by unfold pY; omega
  have e4 : pY k % 4 = VoxelIndex.bY k := by unfold pY; omega
  have e5 : pZ k / 4 = VoxelIndex.vz k := by unfold pZ; omega
  have e6 : pZ k % 4 = VoxelIndex.bZ k := by unfold pZ; omega
  simp only [getBitVoxelXN, readXN]
  by_cases h1 : (VoxelIndex.bX k : Int) - 1 < 0
  · have hbx0 : VoxelIndex.bX k = 0 := by omega
    rw [if_pos h1]
    by_cases h2 : (VoxelIndex.vx k : Int) - 1 < 0
    · have hvx0 : VoxelIndex.vx k = 0 := by omega
      rw [if_pos h2, if_neg (show ¬ (1 ≤ pX k) from by unfold pX; omega)]
      rw [show (3 : Int) = ((3 : Nat) : Int) from rfl]
      rw [encodeI_natCast _ _ _ _ _ _ (by omega) (by omega) (by omega) (by omega)
        (by omega) (by omega)]
      unfold pos16
      rw [show (15 : Nat) / 4 = 3 from by norm_num, show (15 : Nat) % 4 = 3 from by norm_num,
        e3, e4, e5, e6]
      exact BVXLayer.get_eq_core _ _ (VoxelIndex.encodeN_lt _ _ _ _ _ _) hn
    · rw [if_neg h2, if_pos (show 1 ≤ pX k from by unfold pX; omega)]
      rw [show (VoxelIndex.vx k : Int) - 1 = ((VoxelIndex.vx k - 1 : Nat) : Int) from by omega]
      rw [show (3 : Int) = ((3 : Nat) : Int) from rfl]
      rw [encodeI_natCast _ _ _ _ _ _ (by omega) (by omega) (by omega) (by omega)
        (by omega) (by omega)]
      have e1 : (pX k - 1) / 4 = VoxelIndex.vx k - 1 := by unfold pX; omega
      have e2 : (pX k - 1) % 4 = 3 := by unfold pX; omega
      unfold pos16
      rw [e1, e2, e3, e4, e5, e6]
      exact BVXLayer.get_eq_core _ _ (VoxelIndex.encodeN_lt _ _ _ _ _ _) hc
  · rw [if_neg h1, if_pos (show 1 ≤ pX k from by unfold pX; omega)]
    rw [show (VoxelIndex.bX k : Int) - 1 = ((VoxelIndex.bX k - 1 : Nat) : Int) from by omega]
    rw [encodeI_natCast _ _ _ _ _ _ (by omega) (by omega) (by omega) (by omega)
      (by omega) (by omega)]
    have e1 : (pX k - 1) / 4 = VoxelIndex.vx k := by unfold pX; omega
    have e2 : (pX k - 1) % 4 = VoxelIndex.bX k - 1 := by unfold pX; omega
    unfold pos16
    rw [e1, e2, e3, e4, e5, e6]
    exact BVXLayer.get_eq_core _ _ (VoxelIndex.encodeN_lt _ _ _ _ _ _) hc

theorem getBitVoxelYP_eq (k : Nat) (c next : VoxelChunk)
    (hc : c.layer.bits.words.size = 128) (hn : next.layer.bits.words.size = 128) :
    getBitVoxelYP k c next = .ok (readYP c.layer.getCore next.layer.getCore k) := by
  have hvx : VoxelIndex.vx k ≤ 3 := Nat.and_le_right
  have hbx : VoxelIndex.bX k ≤ 3 := Nat.and_le_right
  have hvy : VoxelIndex.vy k ≤ 3 := Nat.and_le_right
  have hby : VoxelIndex.bY k ≤ 3 := Nat.and_le_right
  have hvz : VoxelIndex.vz k ≤ 3 := Nat.and_le_right
  have hbz : VoxelIndex.bZ k ≤ 3 := Nat.and_le_right
  have e3 : pX k / 4 = VoxelIndex.vx k := by unfold pX; omega
  have e4 : pX k % 4 = VoxelIndex.bX k := by unfold pX; omega
  have e5 : pZ k / 4 = VoxelIndex.vz k := by unfold pZ; omega
  have e6 : pZ k % 4 = VoxelIndex.bZ k := by unfold pZ; omega
  simp only [getBitVoxelYP, readYP]
  by_cases h1 : VoxelIndex.bY k + 1 > 3
  · rw [if_pos h1]
    by_cases h2 : VoxelIndex.vy k + 1 > 3
    · rw [if_pos h2, if_neg (show ¬ (pY k + 1 ≤ 15) from by unfold pY; omega)]
      unfold pos16
      rw [Nat.zero_div, Nat.zero_mod, e3, e4, e5, e6]
      exact BVXLayer.get_eq_core _ _ (VoxelIndex.encodeN_lt _ _ _ _ _ _) hn
    · rw [if_neg h2, if_pos (show pY k + 1 ≤ 15 from by unfold pY; omega)]
      have e1 : (pY k + 1) / 4 = VoxelIndex.vy k + 1 := by unfold pY; omega
      have e2 : (pY k + 1) % 4 = 0 := by unfold pY; omega
      unfold pos16
      rw [e1, e2, e3, e4, e5, e6]
      exact BVXLayer.get_eq_core _ _ (VoxelIndex.encodeN_lt _ _ _ _ _ _) hc
  · rw [if_neg h1, if_pos (show pY k + 1 ≤ 15 from by unfold pY; omega)]
    have e1 : (pY k + 1) / 4 = VoxelIndex.vy k := by unfold pY; omega
    have e2 : (pY k + 1) % 4 = VoxelIndex.bY k + 1 := by unfold pY; omega
    unfold pos16
    rw [e1, e2, e3, e4, e5, e6]
    exact BVXLayer.get_eq_core _ _ (VoxelIndex.encodeN_lt _ _ _ _ _ _) hc

theorem getBitVoxelYN_eq (k : Nat) (c next : VoxelChunk)
    (hc : c.layer.bits.words.size = 128) (hn : next.layer.bits.words.size = 128) :
    getBitVoxelYN k c next = .ok (readYN c.layer.getCore next.layer.getCore k) := by
  have hvx : VoxelIndex.vx k ≤ 3 := Nat.and_le_right
  have hbx : VoxelIndex.bX k ≤ 3 := Nat.and_le_right
  have hvy : VoxelIndex.vy k ≤ 3 := Nat.and_le_right
  have hby : VoxelIndex.bY k ≤ 3 := Nat.and_le_right
  have hvz : VoxelIndex.vz k ≤ 3 := Nat.and_le_right
  have hbz : VoxelIndex.bZ k ≤ 3 := Nat.and_le_right
  have e3 : pX k / 4 = VoxelIndex.vx k := by unfold pX; omega
  have e4 : pX k % 4 = VoxelIndex.bX k := by unfold pX; omega
  have e5 : pZ k / 4 = VoxelIndex.vz k := by unfold pZ; omega
  have e6 : pZ k % 4 = VoxelIndex.bZ k := by unfold pZ; omega
  simp only [getBitVoxelYN, readYN]
  by_cases h1 : (VoxelIndex.bY k : Int) - 1 < 0
  · have hby0 : VoxelIndex.bY k = 0 := by omega
    rw [if_pos h1]
    by_cases h2 : (VoxelIndex.vy k : Int) - 1 < 0
    · have hvy0 : VoxelIndex.vy k = 0 := by omega
      rw [if_pos h2, if_neg (show ¬ (1 ≤ pY k) from by unfold pY; omega)]
      rw [show (3 : Int) = ((3 : Nat) : Int) from rfl]
      rw [encodeI_natCast _ _ _ _ _ _ (by omega) (by omega) (by omega) (by omega)
        (by omega) (by omega)]
      unfold pos16
      rw [show (15 : Nat) / 4 = 3 from by norm_num, show (15 : Nat) % 4 = 3 from by norm_num,
        e3, e4, e5, e6]
      exact BVXLayer.get_eq_core _ _ (VoxelIndex.encodeN_lt _ _ _ _ _ _) hn
    · rw [if_neg h2, if_pos (show 1 ≤ pY k from by unfold pY; omega)]
      rw [show (VoxelIndex.vy k : Int) - 1 = ((VoxelIndex.vy k - 1 : Nat) : Int) from by omega]
      rw [show (3 : Int) = ((3 : Nat) : Int) from rfl]
      rw [encodeI_natCast _ _ _ _ _ _ (by omega) (by omega) (by omega) (by omega)
        (by omega) (by omega)]
      have e1 : (pY k - 1) / 4 = VoxelIndex.vy k - 1 := by unfold pY; omega
      have e2 : (pY k - 1) % 4 = 3 := by unfold pY; omega
      unfold pos16
      rw [e1, e2, e3, e4, e5, e6]
      exact BVXLayer.get_eq_core _ _ (VoxelIndex.encodeN_lt _ _ _ _ _ _) hc
  · rw [if_neg h1, if_pos (show 1 ≤ pY k from by unfold pY; omega)]
    rw [show (VoxelIndex.bY k : Int) - 1 = ((VoxelIndex.bY k - 1 : Nat) : Int) from by omega]
    rw [encodeI_natCast _ _ _ _ _ _ (by omega) (by omega) (by omega) (by omega)
      (by omega) (by omega)]
    have e1 : (pY k - 1) / 4 = VoxelIndex.vy k := by unfold pY; omega
    have e2 : (pY k - 1) % 4 = VoxelIndex.bY k - 1 := by unfold pY; omega
    unfold pos16
    rw [e1, e2, e3, e4, e5, e6]
    exact BVXLayer.get_eq_core _ _ (VoxelIndex.encodeN_lt _ _ _ _ _ _) hc

theorem getBitVoxelZP_eq (k : Nat) (c next : VoxelChunk)
    (hc : c.layer.bits.words.size = 128) (hn : next.layer.bits.words.size = 128) :
    getBitVoxelZP k c next = .ok (readZP c.layer.getCore next.layer.getCore k) := by
  have hvx : VoxelIndex.vx k ≤ 3 := Nat.and_le_right
  have hbx : VoxelIndex.bX k ≤ 3 := Nat.and_le_right
  have hvy : VoxelIndex.vy k ≤ 3 := Nat.and_le_right
  have hby : VoxelIndex.bY k ≤ 3 := Nat.and_le_right
  have hvz : VoxelIndex.vz k ≤ 3 := Nat.and_le_right
  have hbz : VoxelIndex.bZ k ≤ 3 := Nat.and_le_right
  have e3 : pX k / 4 = VoxelIndex.vx k := by unfold pX; omega
  have e4 : pX k % 4 = VoxelIndex.bX k := by unfold pX; omega
  have e5 : pY k / 4 = VoxelIndex.vy k := by unfold pY; omega
  have e6 : pY k % 4 = VoxelIndex.bY k := by unfold pY; omega
  simp only [getBitVoxelZP, readZP]
  by_cases h1 : VoxelIndex.bZ k + 1 > 3
  · rw [if_pos h1]
    by_cases h2 : VoxelIndex.vz k + 1 > 3
    · rw [if_pos h2, if_neg (show ¬ (pZ k + 1 ≤ 15) from by unfold pZ; omega)]
      unfold pos16
      rw [Nat.zero_div, Nat.zero_mod, e3, e4, e5, e6]
      exact BVXLayer.get_eq_core _ _ (VoxelIndex.encodeN_lt _ _ _ _ _ _) hn
    · rw [if_neg h2, if_pos (show pZ k + 1 ≤ 15 from by unfold pZ; omega)]
      have e1 : (pZ k + 1) / 4 = VoxelIndex.vz k + 1 := by unfold pZ; omega
      have e2 : (pZ k + 1) % 4 = 0 := by unfold pZ; omega
      unfold pos16
      rw [e1, e2, e3, e4, e5, e6]
      exact BVXLayer.get_eq_core _ _ (VoxelIndex.encodeN_lt _ _ _ _ _ _) hc
  · rw [if_neg h1, if_pos (show pZ k + 1 ≤ 15 from by unfold pZ; omega)]
    have e1 : (pZ k + 1) / 4 = VoxelIndex.vz k := by unfold pZ; omega
    have e2 : (pZ k + 1) % 4 = VoxelIndex.bZ k + 1 := by unfold pZ; omega
    unfold pos16
    rw [e1, e2, e3, e4, e5, e6]
    exact BVXLayer.get_eq_core _ _ (VoxelIndex.encodeN_lt _ _ _ _ _ _) hc

theorem getBitVoxelZN_eq (k : Nat) (c next : VoxelChunk)
    (hc : c.layer.bits.words.size = 128) (hn : next.layer.bits.words.size = 128) :
    getBitVoxelZN k c next = .ok (readZN c.layer.getCore next.layer.getCore k) := by
  have hvx : VoxelIndex.vx k ≤ 3 := Nat.and_le_right
  have hbx : VoxelIndex.bX k ≤ 3 := Nat.and_le_right
  have hvy : VoxelIndex.vy k ≤ 3 := Nat.and_le_right
  have hby : VoxelIndex.bY k ≤ 3 := Nat.and_le_right
  have hvz : VoxelIndex.vz k ≤ 3 := Nat.and_le_right
  have hbz : VoxelIndex.bZ k ≤ 3 := Nat.and_le_right
  have e3 : pX k / 4 = VoxelIndex.vx k := by unfold pX; omega
  have e4 : pX k % 4 = VoxelIndex.bX k := by unfold pX; omega
  have e5 : pY k / 4 = VoxelIndex.vy k := by unfold pY; omega
  have e6 : pY k % 4 = VoxelIndex.bY k := by unfold pY; omega
  simp only [getBitVoxelZN, readZN]
  by_cases h1 : (VoxelIndex.bZ k : Int) - 1 < 0
  · have hbz0 : VoxelIndex.bZ k = 0 := by omega
    rw [if_pos h1]
    by_cases h2 : (VoxelIndex.vz k : Int) - 1 < 0
    · have hvz0 : VoxelIndex.vz k = 0 := by omega
      rw [if_pos h2, if_neg (show ¬ (1 ≤ pZ k) from by unfold pZ; omega)]
      rw [show (3 : Int) = ((3 : Nat) : Int) from rfl]
      rw [encodeI_natCast _ _ _ _ _ _ (by omega) (by omega) (by omega) (by omega)
        (by omega) (by omega)]
      unfold pos16
      rw [show (15 : Nat) / 4 = 3 from by norm_num, show (15 : Nat) % 4 = 3 from by norm_num,
        e3, e4, e5, e6]
      exact BVXLayer.get_eq_core _ _ (VoxelIndex.encodeN_lt _ _ _ _ _ _) hn
    · rw [if_neg h2, if_pos (show 1 ≤ pZ k from by unfold pZ; omega)]
      rw [show (VoxelIndex.vz k : Int) - 1 = ((VoxelIndex.vz k - 1 : Nat) : Int) from by omega]
      rw [show (3 : Int) = ((3 : Nat) : Int) from rfl]
      rw [encodeI_natCast _ _ _ _ _ _ (by omega) (by omega) (by omega) (by omega)
        (by omega) (by omega)]
      have e1 : (pZ k - 1) / 4 = VoxelIndex.vz k - 1 := by unfold pZ; omega
      have e2 : (pZ k - 1) % 4 = 3 := by unfold pZ; omega
      unfold pos16
      rw [e1, e2, e3, e4, e5, e6]
      exact BVXLayer.get_eq_core _ _ (VoxelIndex.encodeN_lt _ _ _ _ _ _) hc
  · rw [if_neg h1, if_pos (show 1 ≤ pZ k from by unfold pZ; omega)]
    rw [show (VoxelIndex.bZ k : Int) - 1 = ((VoxelIndex.bZ k - 1 : Nat) : Int) from by omega]
    rw [encodeI_natCast _ _ _ _ _ _ (by omega) (by omega) (by omega) (by omega)
      (by omega) (by omega)]
    have e1 : (pZ k - 1) / 4 = VoxelIndex.vz k := by unfold pZ; omega
    have e2 : (pZ k - 1) % 4 = VoxelIndex.bZ k - 1 := by unfold pZ; omega
    unfold pos16
    rw [e1, e2, e3, e4, e5, e6]
    exact BVXLayer.get_eq_core _ _ (VoxelIndex.encodeN_lt _ _ _ _ _ _) hc

theorem except_bind_ok {α β : Type} (a : α) (f : α → Except JSError β) :
    (Except.ok a >>= f) = f a := rfl

theorem arr_size_setD (a : Array Nat) (i v : Nat) : (a.setD i v).size = a.size := by
  unfold Array.setD
  by_cases h : i < a.size
  · simp [h]
  · simp [h]

theorem arr_getD_eq_list (a : Array Nat) (i : Nat) : a.getD i 0 = a.toList.getD i 0 := by
  rcases a with ⟨l⟩
  simp [Array.getD_eq_get?, List.getD]

theorem list_map_getD_le (f : Nat → Nat) (hf : f 0 = 0) :
    ∀ (L : List Nat) (i : Nat), f (L.getD i 0) ≤ (L.map f).sum := by
  intro L
  induction L with
  | nil => intro i; simp [List.getD, hf]
  | cons a t ih =>
    intro i
    cases i with
    | zero => simp
    | succ j =>
      have h := ih j
      simp only [List.getD_cons_succ, List.map_cons, List.sum_cons]
      omega

/-- A nonempty layer: some in-range bit is set, so the SWAR population count
of the layer is positive. -/
theorem layer_length_pos (l : BVXLayer) (hs : l.bits.words.size = 128)
    (hw : ∀ i, i < 128 → l.bits.words.getD i 0 < 4294967296)
    (k : Nat) (hk : k < 4096) (hbit : l.getCore k ≠ 0) : ¬ (l.length ≤ 0) := by
  intro hle
  have hword : l.bits.words.getD (k / 32) 0 ≠ 0 := by
    intro h0
    apply hbit
    unfold BVXLayer.getCore
    rw [h0]
    unfold BitOps.bitAt
    rw [Nat.zero_shiftRight]
    decide
  have hp : 0 < BitOps.popCount (l.bits.words.getD (k / 32) 0) :=
    popCount_pos _ (hw _ (by omega)) hword
  have hle2 : BitOps.popCount (l.bits.words.getD (k / 32) 0) ≤ l.length := by
    unfold BVXLayer.length BitArray.popCount
    rw [arr_getD_eq_list]
    exact list_map_getD_le BitOps.popCount rfl _ _
  omega

theorem computeStep_ok (c xp xn yp yn zp zn : VoxelChunk) (buf : Array Nat) (index : Nat)
    (hidx : index < 4096)
    (hc : c.layer.bits.words.size = 128)
    (hxp : xp.layer.bits.words.size = 128) (hxn : xn.layer.bits.words.size = 128)
    (hyp2 : yp.layer.bits.words.size = 128) (hyn : yn.layer.bits.words.size = 128)
    (hzp : zp.layer.bits.words.size = 128) (hzn : zn.layer.bits.words.size = 128)
    (hbuf : buf.getD index 0 = 0) :
    computeStep c xp xn yp yn zp zn buf index =
      .ok (if c.layer.getCore index = 0 then buf
        else buf.setD index (cellMask c xp xn yp yn zp zn index)) := by
  have hg : c.getBitVoxel (VoxelIndex.keySet index) = .ok (c.layer.getCore index) := by
    rw [keySet_small hidx]
    exact BVXLayer.get_eq_core _ _ hidx hc
  simp only [computeStep]
  rw [hg, except_bind_ok]
  by_cases hz : c.layer.getCore index = 0
  · rw [if_pos hz, if_pos hz]
    rfl
  · rw [if_neg hz, if_neg hz]
    rw [keySet_small hidx]
    rw [getBitVoxelXP_eq index c xp hc hxp, except_bind_ok,
      getBitVoxelXN_eq index c xn hc hxn, except_bind_ok,
      getBitVoxelYP_eq index c yp hc hyp2, except_bind_ok,
      getBitVoxelYN_eq index c yn hc hyn, except_bind_ok,
      getBitVoxelZP_eq index c zp hc hzp, except_bind_ok,
      getBitVoxelZN_eq index c zn hc hzn, except_bind_ok]
    rw [hbuf]
    rfl

theorem computeLoop_ok (c xp xn yp yn zp zn : VoxelChunk)
    (hc : c.layer.bits.words.size = 128)
    (hxp : xp.layer.bits.words.size = 128) (hxn : xn.layer.bits.words.size = 128)
    (hyp2 : yp.layer.bits.words.size = 128) (hyn : yn.layer.bits.words.size = 128)
    (hzp : zp.layer.bits.words.size = 128) (hzn : zn.layer.bits.words.size = 128) :
    ∀ n, n ≤ 4096 →
      ∃ buf, computeLoop c xp xn yp yn zp zn n (Array.mkArray 4096 0) = .ok buf ∧
        buf.size = 4096 ∧
        ∀ i, buf.getD i 0 =
          if i < n ∧ c.layer.getCore i ≠ 0 then cellMask c xp xn yp yn zp zn i else 0 := by
  intro n
  induction n with
  | zero =>
    intro _
    refine ⟨Array.mkArray 4096 0, rfl, by simp, ?_⟩
    intro i
    rw [arr_getD_mkArray]
    simp
  | succ m ih =>
    intro hm
    obtain ⟨buf, hbuf, hsize, hchar⟩ := ih (by omega)
    have hstep := computeStep_ok c xp xn yp yn zp zn buf m (by omega) hc hxp hxn hyp2 hyn
      hzp hzn (by rw [hchar]; simp)
    have hL : computeLoop c xp xn yp yn zp zn (m + 1) (Array.mkArray 4096 0)
        = .ok (if c.layer.getCore m = 0 then buf
            else buf.setD m (cellMask c xp xn yp yn zp zn m)) := by
      simp only [computeLoop]
      rw [hbuf, except_bind_ok, hstep]
    by_cases hz : c.layer.getCore m = 0
    · refine ⟨buf, by rw [hL, if_pos hz], hsize, ?_⟩
      intro i
      rw [hchar]
      by_cases him : i = m
      · subst him
        rw [if_neg (by omega : ¬ (i < i ∧ c.layer.getCore i ≠ 0))]
        rw [if_neg (fun h => h.2 hz)]
      · rw [if_congr (show (i < m ∧ c.layer.getCore i ≠ 0)
          ↔ (i < m + 1 ∧ c.layer.getCore i ≠ 0) from
            ⟨fun h => ⟨by omega, h.2⟩, fun h => ⟨by omega, h.2⟩⟩) rfl rfl]
    · refine ⟨buf.setD m (cellMask c xp xn yp yn zp zn m), by rw [hL, if_neg hz], ?_, ?_⟩
      · rw [arr_size_setD]
        exact hsize
      · intro i
        rw [arr_getD_setD]
        by_cases him : i = m
        · subst him
          rw [if_pos ⟨rfl, by omega⟩, if_pos ⟨by omega, hz⟩]
        · rw [if_neg (fun h => him h.1), hchar]
          rw [if_congr (show (i < m ∧ c.layer.getCore i ≠ 0)
            ↔ (i < m + 1 ∧ c.layer.getCore i ≠ 0) from
              ⟨fun h => ⟨by omega, h.2⟩, fun h => ⟨by omega, h.2⟩⟩) rfl rfl]

theorem singleWorld_get (c : VoxelChunk) (k : Nat) :
    (VoxelWorld.make.insert c).get k = if k = c.key then some c else none := by
  simp only [VoxelWorld.get, VoxelWorld.insert, VoxelWorld.make, HashGrid.make,
    HashGrid.get, HashGrid.set]
  norm_num
  by_cases hb : k % 1024 = c.key % 1024
  · rw [if_pos hb]
    by_cases he : k = c.key
    · subst he
      rw [if_pos rfl]
      simp [List.find?_cons]
    · rw [if_neg he]
      simp [List.find?_cons, Ne.symm he]
  · rw [if_neg hb]
    rw [if_neg (fun h => hb (by rw [h]))]
    simp

theorem zeroChunk_size : zeroChunk.layer.bits.words.size = 128 := by decide

theorem zeroChunk_getCore (j : Nat) : zeroChunk.layer.getCore j = 0 := by
  show (BVXLayer.make).getCore j = 0
  unfold BVXLayer.getCore BVXLayer.make BitArray.make
  rw [arr_getD_mkArray, ite_self]
  unfold BitOps.bitAt
  rw [Nat.zero_shiftRight]
  decide

theorem p_pos16 : ∀ X, X < 16 → ∀ Y, Y < 16 → ∀ Z, Z < 16 →
    pX (pos16 X Y Z) = X ∧ pY (pos16 X Y Z) = Y ∧ pZ (pos16 X Y Z) = Z := by decide

theorem pos16_inj {A B C D E F : Nat} (hA : A < 16) (hB : B < 16) (hC : C < 16)
    (hD : D < 16) (hE : E < 16) (hF : F < 16) (h : pos16 A B C = pos16 D E F) :
    A = D ∧ B = E ∧ C = F := by
  obtain ⟨p1, p2, p3⟩ := p_pos16 A hA B hB C hC
  obtain ⟨q1, q2, q3⟩ := p_pos16 D hD E hE F hF
  refine ⟨?_, ?_, ?_⟩
  · rw [← p1, h, q1]
  · rw [← p2, h, q2]
  · rw [← p3, h, q3]

theorem pos16_lt (X Y Z : Nat) : pos16 X Y Z < 4096 :=
  VoxelIndex.encodeN_lt _ _ _ _ _ _

theorem readXP_eval (cb nb : Nat → Nat) (A B C : Nat) (hA : A < 16) (hB : B < 16)
    (hC : C < 16) :
    readXP cb nb (pos16 A B C) =
      if A + 1 ≤ 15 then cb (pos16 (A + 1) B C) else nb (pos16 0 B C) := by
  obtain ⟨p1, p2, p3⟩ := p_pos16 A hA B hB C hC
  unfold readXP
  rw [p1, p2, p3]

theorem readXN_eval (cb nb : Nat → Nat) (A B C : Nat) (hA : A < 16) (hB : B < 16)
    (hC : C < 16) :
    readXN cb nb (pos16 A B C) =
      if 1 ≤ A then cb (pos16 (A - 1) B C) else nb (pos16 15 B C) := by
  obtain ⟨p1, p2, p3⟩ := p_pos16 A hA B hB C hC
  unfold readXN
  rw [p1, p2, p3]

theorem readYP_eval (cb nb : Nat → Nat) (A B C : Nat) (hA : A < 16) (hB : B < 16)
    (hC : C < 16) :
    readYP cb nb (pos16 A B C) =
      if B + 1 ≤ 15 then cb (pos16 A (B + 1) C) else nb (pos16 A 0 C) := by
  obtain ⟨p1, p2, p3⟩ := p_pos16 A hA B hB C hC
  unfold readYP
  rw [p1, p2, p3]

theorem readYN_eval (cb nb : Nat → Nat) (A B C : Nat) (hA : A < 16) (hB : B < 16)
    (hC : C < 16) :
    readYN cb nb (pos16 A B C) =
      if 1 ≤ B then cb (pos16 A (B - 1) C) else nb (pos16 A 15 C) := by
  obtain ⟨p1, p2, p3⟩ := p_pos16 A hA B hB C hC
  unfold readYN
  rw [p1, p2, p3]

theorem readZP_eval (cb nb : Nat → Nat) (A B C : Nat) (hA : A < 16) (hB : B < 16)
    (hC : C < 16) :
    readZP cb nb (pos16 A B C) =
      if C + 1 ≤ 15 then cb (pos16 A B (C + 1)) else nb (pos16 A B 0) := by
  obtain ⟨p1, p2, p3⟩ := p_pos16 A hA B hB C hC
  unfold readZP
  rw [p1, p2, p3]

theorem readZN_eval (cb nb : Nat → Nat) (A B C : Nat) (hA : A < 16) (hB : B < 16)
    (hC : C < 16) :
    readZN cb nb (pos16 A B C) =
      if 1 ≤ C then cb (pos16 A B (C - 1)) else nb (pos16 A B 15) := by
  obtain ⟨p1, p2, p3⟩ := p_pos16 A hA B hB C hC
  unfold readZN
  rw [p1, p2, p3]

/-- Well-formedness of a layer backed by a real 128-word Uint32Array: fixed
length, 32-bit entries. -/
def LayerWF (l : BVXLayer) : Prop :=
  l.bits.words.size = 128 ∧ ∀ i, i < 128 → l.bits.words.getD i 0 < 4294967296

/-- The seven bitvoxel keys of a center position and its six axis-aligned
neighbours. -/
def starKeys (X Y Z : Nat) : List Nat :=
  [pos16 X Y Z, pos16 (X + 1) Y Z, pos16 (X - 1) Y Z, pos16 X (Y + 1) Z,
    pos16 X (Y - 1) Z, pos16 X Y (Z + 1), pos16 X Y (Z - 1)]

/-- Claim C1: in a single-chunk world whose layer sets exactly the seven
bitvoxels of a center position and its six axis neighbours (all interior),
computeIndices stores mask 0 at the center and a mask of popcount 5 at each
neighbour, each losing exactly the face that points at the center. -/
theorem claim_C1_face_solver_occlusion (a b d X Y Z : Nat)
    (hX : 1 ≤ X ∧ X ≤ 14) (hY : 1 ≤ Y ∧ Y ≤ 14) (hZ : 1 ≤ Z ∧ Z ≤ 14)
    (c : VoxelChunk) (hkey : c.key = Morton.fromN a b d) (hwf : LayerWF c.layer)
    (hbits : ∀ k, k < 4096 →
      c.layer.getCore k = if k ∈ starKeys X Y Z then 1 else 0) :
    ∃ buf, computeIndices c (VoxelWorld.make.insert c) = .ok buf ∧
      buf.getD (pos16 X Y Z) 0 = 0 ∧
      buf.getD (pos16 (X + 1) Y Z) 0 = 61 ∧
      buf.getD (pos16 (X - 1) Y Z) 0 = 62 ∧
      buf.getD (pos16 X (Y + 1) Z) 0 = 55 ∧
      buf.getD (pos16 X (Y - 1) Z) 0 = 59 ∧
      buf.getD (pos16 X Y (Z + 1)) 0 = 31 ∧
      buf.getD (pos16 X Y (Z - 1)) 0 = 47 ∧
      BitOps.popCount 61 = 5 ∧ BitOps.popCount 62 = 5 ∧ BitOps.popCount 55 = 5 ∧
      BitOps.popCount 59 = 5 ∧ BitOps.popCount 31 = 5 ∧ BitOps.popCount 47 = 5 := by
  obtain ⟨hX1, hX14⟩ := hX
  obtain ⟨hY1, hY14⟩ := hY
  obtain ⟨hZ1, hZ14⟩ := hZ
  obtain ⟨hsz, hwd⟩ := hwf
  have hmem1 : ∀ A B C : Nat, pos16 A B C ∈ starKeys X Y Z →
      c.layer.getCore (pos16 A B C) = 1 := by
    intro A B C hm
    rw [hbits _ (pos16_lt A B C), if_pos hm]
  have hmem0 : ∀ A B C : Nat, A < 16 → B < 16 → C < 16 →
      (¬ (A = X ∧ B = Y ∧ C = Z)) → (¬ (A = X + 1 ∧ B = Y ∧ C = Z)) →
      (¬ (A = X - 1 ∧ B = Y ∧ C = Z)) → (¬ (A = X ∧ B = Y + 1 ∧ C = Z)) →
      (¬ (A = X ∧ B = Y - 1 ∧ C = Z)) → (¬ (A = X ∧ B = Y ∧ C = Z + 1)) →
      (¬ (A = X ∧ B = Y ∧ C = Z - 1)) →
      c.layer.getCore (pos16 A B C) = 0 := by
    intro A B C hA hB hC n1 n2 n3 n4 n5 n6 n7
    have hnm : pos16 A B C ∉ starKeys X Y Z := by
      simp only [starKeys, List.mem_cons, List.not_mem_nil, or_false]
      rintro (h | h | h | h | h | h | h)
      · exact n1 (pos16_inj hA hB hC (by omega) (by omega) (by omega) h)
      · exact n2 (pos16_inj hA hB hC (by omega) (by omega) (by omega) h)
      · exact n3 (pos16_inj hA hB hC (by omega) (by omega) (by omega) h)
      · exact n4 (pos16_inj hA hB hC (by omega) (by omega) (by omega) h)
      · exact n5 (pos16_inj hA hB hC (by omega) (by omega) (by omega) h)
      · exact n6 (pos16_inj hA hB hC (by omega) (by omega) (by omega) h)
      · exact n7 (pos16_inj hA hB hC (by omega) (by omega) (by omega) h)
    rw [hbits _ (pos16_lt A B C), if_neg hnm]
  have hcmask : cellMask c zeroChunk zeroChunk zeroChunk zeroChunk zeroChunk zeroChunk
      (pos16 X Y Z) = 0 := by
    have r1 : readXP c.layer.getCore zeroChunk.layer.getCore (pos16 X Y Z) = 1 := by
      rw [readXP_eval _ _ X Y Z (by omega) (by omega) (by omega), if_pos (by omega)]
      exact hmem1 (X + 1) Y Z (by simp [starKeys])
    have r2 : readXN c.layer.getCore zeroChunk.layer.getCore (pos16 X Y Z) = 1 := by
      rw [readXN_eval _ _ X Y Z (by omega) (by omega) (by omega), if_pos (by omega)]
      exact hmem1 (X - 1) Y Z (by simp [starKeys])
    have r3 : readYP c.layer.getCore zeroChunk.layer.getCore (pos16 X Y Z) = 1 := by
      rw [readYP_eval _ _ X Y Z (by omega) (by omega) (by omega), if_pos (by omega)]
      exact hmem1 X (Y + 1) Z (by simp [starKeys])
    have r4 : readYN c.layer.getCore zeroChunk.layer.getCore (pos16 X Y Z) = 1 := by
      rw [readYN_eval _ _ X Y Z (by omega) (by omega) (by omega), if_pos (by omega)]
      exact hmem1 X (Y - 1) Z (by simp [starKeys])
    have r5 : readZP c.layer.getCore zeroChunk.layer.getCore (pos16 X Y Z) = 1 := by
      rw [readZP_eval _ _ X Y Z (by omega) (by omega) (by omega), if_pos (by omega)]
      exact hmem1 X Y (Z + 1) (by simp [starKeys])
    have r6 : readZN c.layer.getCore zeroChunk.layer.getCore (pos16 X Y Z) = 1 := by
      rw [readZN_eval _ _ X Y Z (by omega) (by omega) (by omega), if_pos (by omega)]
      exact hmem1 X Y (Z - 1) (by simp [starKeys])
    unfold cellMask
    rw [r1, r2, r3, r4, r5, r6]
    decide
  have hxpmask : cellMask c zeroChunk zeroChunk zeroChunk zeroChunk zeroChunk zeroChunk
      (pos16 (X + 1) Y Z) = 61 := by
    have r1 : readXP c.layer.getCore zeroChunk.layer.getCore (pos16 (X + 1) Y Z) = 0 := by
      rw [readXP_eval _ _ (X + 1) Y Z (by omega) (by omega) (by omega)]
      by_cases h : X + 1 + 1 ≤ 15
      · rw [if_pos h]
        exact hmem0 (X + 1 + 1) Y Z (by omega) (by omega) (by omega) (by omega) (by omega)
          (by omega) (by omega) (by omega) (by omega) (by omega)
      · rw [if_neg h, zeroChunk_getCore]
    have r2 : readXN c.layer.getCore zeroChunk.layer.getCore (pos16 (X + 1) Y Z) = 1 := by
      rw [readXN_eval _ _ (X + 1) Y Z (by omega) (by omega) (by omega), if_pos (by omega),
        show X + 1 - 1 = X from by omega]
      exact hmem1 X Y Z (by simp [starKeys])
    have r3 : readYP c.layer.getCore zeroChunk.layer.getCore (pos16 (X + 1) Y Z) = 0 := by
      rw [readYP_eval _ _ (X + 1) Y Z (by omega) (by omega) (by omega), if_pos (by omega)]
      exact hmem0 (X + 1) (Y + 1) Z (by omega) (by omega) (by omega) (by omega) (by omega)
        (by omega) (by omega) (by omega) (by omega) (by omega)
    have r4 : readYN c.layer.getCore zeroChunk.layer.getCore (pos16 (X + 1) Y Z) = 0 := by
      rw [readYN_eval _ _ (X + 1) Y Z (by omega) (by omega) (by omega), if_pos (by omega)]
      exact hmem0 (X + 1) (Y - 1) Z (by omega) (by omega) (by omega) (by omega) (by omega)
        (by omega) (by omega) (by omega) (by omega) (by omega)
    have r5 : readZP c.layer.getCore zeroChunk.layer.getCore (pos16 (X + 1) Y Z) = 0 := by
      rw [readZP_eval _ _ (X + 1) Y Z (by omega) (by omega) (by omega), if_pos (by omega)]
      exact hmem0 (X + 1) Y (Z + 1) (by omega) (by omega) (by omega) (by omega) (by omega)
        (by omega) (by omega) (by omega) (by omega) (by omega)
    have r6 : readZN c.layer.getCore zeroChunk.layer.getCore (pos16 (X + 1) Y Z) = 0 := by
      rw [readZN_eval _ _ (X + 1) Y Z (by omega) (by omega) (by omega), if_pos (by omega)]
      exact hmem0 (X + 1) Y (Z - 1) (by omega) (by omega) (by omega) (by omega) (by omega)
        (by omega) (by omega) (by omega) (by omega) (by omega)
    unfold cellMask
    rw [r1, r2, r3, r4, r5, r6]
    decide
  have hxnmask : cellMask c zeroChunk zeroChunk zeroChunk zeroChunk zeroChunk zeroChunk
      (pos16 (X - 1) Y Z) = 62 := by
    have r1 : readXP c.layer.getCore zeroChunk.layer.getCore (pos16 (X - 1) Y Z) = 1 := by
      rw [readXP_eval _ _ (X - 1) Y Z (by omega) (by omega) (by omega), if_pos (by omega),
        show X - 1 + 1 = X from by omega]
      exact hmem1 X Y Z (by simp [starKeys])
    have r2 : readXN c.layer.getCore zeroChunk.layer.getCore (pos16 (X - 1) Y Z) = 0 := by
      rw [readXN_eval _ _ (X - 1) Y Z (by omega) (by omega) (by omega)]
      by_cases h : 1 ≤ X - 1
      · rw [if_pos h]
        exact hmem0 (X - 1 - 1) Y Z (by omega) (by omega) (by omega) (by omega) (by omega)
          (by omega) (by omega) (by omega) (by omega) (by omega)
      · rw [if_neg h, zeroChunk_getCore]
    have r3 : readYP c.layer.getCore zeroChunk.layer.getCore (pos16 (X - 1) Y Z) = 0 := by
      rw [readYP_eval _ _ (X - 1) Y Z (by omega) (by omega) (by omega), if_pos (by omega)]
      exact hmem0 (X - 1) (Y + 1) Z (by omega) (by omega) (by omega) (by omega) (by omega)
        (by omega) (by omega) (by omega) (by omega) (by omega)
    have r4 : readYN c.layer.getCore zeroChunk.layer.getCore (pos16 (X - 1) Y Z) = 0 := by
      rw [readYN_eval _ _ (X - 1) Y Z (by omega) (by omega) (by omega), if_pos (by omega)]
      exact hmem0 (X - 1) (Y - 1) Z (by omega) (by omega) (by omega) (by omega) (by omega)
        (by omega) (by omega) (by omega) (by omega) (by omega)
    have r5 : readZP c.layer.getCore zeroChunk.layer.getCore (pos16 (X - 1) Y Z) = 0 := by
      rw [readZP_eval _ _ (X - 1) Y Z (by omega) (by omega) (by omega), if_pos (by omega)]
      exact hmem0 (X - 1) Y (Z + 1) (by omega) (by omega) (by omega) (by omega) (by omega)
        (by omega) (by omega) (by omega) (by omega) (by omega)
    have r6 : readZN c.layer.getCore zeroChunk.layer.getCore (pos16 (X - 1) Y Z) = 0 := by
      rw [readZN_eval _ _ (X - 1) Y Z (by omega) (by omega) (by omega), if_pos (by omega)]
      exact hmem0 (X - 1) Y (Z - 1) (by omega) (by omega) (by omega) (by omega) (by omega)
        (by omega) (by omega) (by omega) (by omega) (by omega)
    unfold cellMask
    rw [r1, r2, r3, r4, r5, r6]
    decide
  have hypmask : cellMask c zeroChunk zeroChunk zeroChunk zeroChunk zeroChunk zeroChunk
      (pos16 X (Y + 1) Z) = 55 := by
    have r1 : readXP c.layer.getCore zeroChunk.layer.getCore (pos16 X (Y + 1) Z) = 0 := by
      rw [readXP_eval _ _ X (Y + 1) Z (by omega) (by omega) (by omega), if_pos (by omega)]
      exact hmem0 (X + 1) (Y + 1) Z (by omega) (by omega) (by omega) (by omega) (by omega)
        (by omega) (by omega) (by omega) (by omega) (by omega)
    have r2 : readXN c.layer.getCore zeroChunk.layer.getCore (pos16 X (Y + 1) Z) = 0 := by
      rw [readXN_eval _ _ X (Y + 1) Z (by omega) (by omega) (by omega), if_pos (by omega)]
      exact hmem0 (X - 1) (Y + 1) Z (by omega) (by omega) (by omega) (by omega) (by omega)
        (by omega) (by omega) (by omega) (by omega) (by omega)
    have r3 : readYP c.layer.getCore zeroChunk.layer.getCore (pos16 X (Y + 1) Z) = 0 := by
      rw [readYP_eval _ _ X (Y + 1) Z (by omega) (by omega) (by omega)]
      by_cases h : Y + 1 + 1 ≤ 15
      · rw [if_pos h]
        exact hmem0 X (Y + 1 + 1) Z (by omega) (by omega) (by omega) (by omega) (by omega)
          (by omega) (by omega) (by omega) (by omega) (by omega)
      · rw [if_neg h, zeroChunk_getCore]
    have r4 : readYN c.layer.getCore zeroChunk.layer.getCore (pos16 X (Y + 1) Z) = 1 := by
      rw [readYN_eval _ _ X (Y + 1) Z (by omega) (by omega) (by omega), if_pos (by omega),
        show Y + 1 - 1 = Y from by omega]
      exact hmem1 X Y Z (by simp [starKeys])
    have r5 : readZP c.layer.getCore zeroChunk.layer.getCore (pos16 X (Y + 1) Z) = 0 := by
      rw [readZP_eval _ _ X (Y + 1) Z (by omega) (by omega) (by omega), if_pos (by omega)]
      exact hmem0 X (Y + 1) (Z + 1) (by omega) (by omega) (by omega) (by omega) (by omega)
        (by omega) (by omega) (by omega) (by omega) (by omega)
    have r6 : readZN c.layer.getCore zeroChunk.layer.getCore (pos16 X (Y + 1) Z) = 0 := by
      rw [readZN_eval _ _ X (Y + 1) Z (by omega) (by omega) (by omega), if_pos (by omega)]
      exact hmem0 X (Y + 1) (Z - 1) (by omega) (by omega) (by omega) (by omega) (by omega)
        (by omega) (by omega) (by omega) (by omega) (by omega)
    unfold cellMask
    rw [r1, r2, r3, r4, r5, r6]
    decide
  have hynmask : cellMask c zeroChunk zeroChunk zeroChunk zeroChunk zeroChunk zeroChunk
      (pos16 X (Y - 1) Z) = 59 := by
    have r1 : readXP c.layer.getCore zeroChunk.layer.getCore (pos16 X (Y - 1) Z) = 0 := by
      rw [readXP_eval _ _ X (Y - 1) Z (by omega) (by omega) (by omega), if_pos (by omega)]
      exact hmem0 (X + 1) (Y - 1) Z (by omega) (by omega) (by omega) (by omega) (by omega)
        (by omega) (by omega) (by omega) (by omega) (by omega)
    have r2 : readXN c.layer.getCore zeroChunk.layer.getCore (pos16 X (Y - 1) Z) = 0 := by
      rw [readXN_eval _ _ X (Y - 1) Z (by omega) (by omega) (by omega), if_pos (by omega)]
      exact hmem0 (X - 1) (Y - 1) Z (by omega) (by omega) (by omega) (by omega) (by omega)
        (by omega) (by omega) (by omega) (by omega) (by omega)
    have r3 : readYP c.layer.getCore zeroChunk.layer.getCore (pos16 X (Y - 1) Z) = 1 := by
      rw [readYP_eval _ _ X (Y - 1) Z (by omega) (by omega) (by omega), if_pos (by omega),
        show Y - 1 + 1 = Y from by omega]
      exact hmem1 X Y Z (by simp [starKeys])
    have r4 : readYN c.layer.getCore zeroChunk.layer.getCore (pos16 X (Y - 1) Z) = 0 := by
      rw [readYN_eval _ _ X (Y - 1) Z (by omega) (by omega) (by omega)]
      by_cases h : 1 ≤ Y - 1
      · rw [if_pos h]
        exact hmem0 X (Y - 1 - 1) Z (by omega) (by omega) (by omega) (by omega) (by omega)
          (by omega) (by omega) (by omega) (by omega) (by omega)
      · rw [if_neg h, zeroChunk_getCore]
    have r5 : readZP c.layer.getCore zeroChunk.layer.getCore (pos16 X (Y - 1) Z) = 0 := by
      rw [readZP_eval _ _ X (Y - 1) Z (by omega) (by omega) (by omega), if_pos (by omega)]
      exact hmem0 X (Y - 1) (Z + 1) (by omega) (by omega) (by omega) (by omega) (by omega)
        (by omega) (by omega) (by omega) (by omega) (by omega)
    have r6 : readZN c.layer.getCore zeroChunk.layer.getCore (pos16 X (Y - 1) Z) = 0 := by
      rw [readZN_eval _ _ X (Y - 1) Z (by omega) (by omega) (by omega), if_pos (by omega)]
      exact hmem0 X (Y - 1) (Z - 1) (by omega) (by omega) (by omega) (by omega) (by omega)
        (by omega) (by omega) (by omega) (by omega) (by omega)
    unfold cellMask
    rw [r1, r2, r3, r4, r5, r6]
    decide
  have hzpmask : cellMask c zeroChunk zeroChunk zeroChunk zeroChunk zeroChunk zeroChunk
      (pos16 X Y (Z + 1)) = 31 := by
    have r1 : readXP c.layer.getCore zeroChunk.layer.getCore (pos16 X Y (Z + 1)) = 0 := by
      rw [readXP_eval _ _ X Y (Z + 1) (by omega) (by omega) (by omega), if_pos (by omega)]
      exact hmem0 (X + 1) Y (Z + 1) (by omega) (by omega) (by omega) (by omega) (by omega)
        (by omega) (by omega) (by omega) (by omega) (by omega)
    have r2 : readXN c.layer.getCore zeroChunk.layer.getCore (pos16 X Y (Z + 1)) = 0 := by
      rw [readXN_eval _ _ X Y (Z + 1) (by omega) (by omega) (by omega), if_pos (by omega)]
      exact hmem0 (X - 1) Y (Z + 1) (by omega) (by omega) (by omega) (by omega) (by omega)
        (by omega) (by omega) (by omega) (by omega) (by omega)
    have r3 : readYP c.layer.getCore zeroChunk.layer.getCore (pos16 X Y (Z + 1)) = 0 := by
      rw [readYP_eval _ _ X Y (Z + 1) (by omega) (by omega) (by omega), if_pos (by omega)]
      exact hmem0 X (Y + 1) (Z + 1) (by omega) (by omega) (by omega) (by omega) (by omega)
        (by omega) (by omega) (by omega) (by omega) (by omega)
    have r4 : readYN c.layer.getCore zeroChunk.layer.getCore (pos16 X Y (Z + 1)) = 0 := by
      rw [readYN_eval _ _ X Y (Z + 1) (by omega) (by omega) (by omega), if_pos (by omega)]
      exact hmem0 X (Y - 1) (Z + 1) (by omega) (by omega) (by omega) (by omega) (by omega)
        (by omega) (by omega) (by omega) (by omega) (by omega)
    have r5 : readZP c.layer.getCore zeroChunk.layer.getCore (pos16 X Y (Z + 1)) = 0 := by
      rw [readZP_eval _ _ X Y (Z + 1) (by omega) (by omega) (by omega)]
      by_cases h : Z + 1 + 1 ≤ 15
      · rw [if_pos h]
        exact hmem0 X Y (Z + 1 + 1) (by omega) (by omega) (by omega) (by omega) (by omega)
          (by omega) (by omega) (by omega) (by omega) (by omega)
      · rw [if_neg h, zeroChunk_getCore]
    have r6 : readZN c.layer.getCore zeroChunk.layer.getCore (pos16 X Y (Z + 1)) = 1 := by
      rw [readZN_eval _ _ X Y (Z + 1) (by omega) (by omega) (by omega), if_pos (by omega),
        show Z + 1 - 1 = Z from by omega]
      exact hmem1 X Y Z (by simp [starKeys])
    unfold cellMask
    rw [r1, r2, r3, r4, r5, r6]
    decide
  have hznmask : cellMask c zeroChunk zeroChunk zeroChunk zeroChunk zeroChunk zeroChunk
      (pos16 X Y (Z - 1)) = 47 := by
    have r1 : readXP c.layer.getCore zeroChunk.layer.getCore (pos16 X Y (Z - 1)) = 0 := by
      rw [readXP_eval _ _ X Y (Z - 1) (by omega) (by omega) (by omega), if_pos (by omega)]
      exact hmem0 (X + 1) Y (Z - 1) (by omega) (by omega) (by omega) (by omega) (by omega)
        (by omega) (by omega) (by omega) (by omega) (by omega)
    have r2 : readXN c.layer.getCore zeroChunk.layer.getCore (pos16 X Y (Z - 1)) = 0 := by
      rw [readXN_eval _ _ X Y (Z - 1) (by omega) (by omega) (by omega), if_pos (by omega)]
      exact hmem0 (X - 1) Y (Z - 1) (by omega) (by omega) (by omega) (by omega) (by omega)
        (by omega) (by omega) (by omega) (by omega) (by omega)
    have r3 : readYP c.layer.getCore zeroChunk.layer.getCore (pos16 X Y (Z - 1)) = 0 := by
      rw [readYP_eval _ _ X Y (Z - 1) (by omega) (by omega) (by omega), if_pos (by omega)]
      exact hmem0 X (Y + 1) (Z - 1) (by omega) (by omega) (by omega) (by omega) (by omega)
        (by omega) (by omega) (by omega) (by omega) (by omega)
    have r4 : readYN c.layer.getCore zeroChunk.layer.getCore (pos16 X Y (Z - 1)) = 0 := by
      rw [readYN_eval _ _ X Y (Z - 1) (by omega) (by omega) (by omega), if_pos (by omega)]
      exact hmem0 X (Y - 1) (Z - 1) (by omega) (by omega) (by omega) (by omega) (by omega)
        (by omega) (by omega) (by omega) (by omega) (by omega)
    have r5 : readZP c.layer.getCore zeroChunk.layer.getCore (pos16 X Y (Z - 1)) = 1 := by
      rw [readZP_eval _ _ X Y (Z - 1) (by omega) (by omega) (by omega), if_pos (by omega),
        show Z - 1 + 1 = Z from by omega]
      exact hmem1 X Y Z (by simp [starKeys])
    have r6 : readZN c.layer.getCore zeroChunk.layer.getCore (pos16 X Y (Z - 1)) = 0 := by
      rw [readZN_eval _ _ X Y (Z - 1) (by omega) (by omega) (by omega)]
      by_cases h : 1 ≤ Z - 1
      · rw [if_pos h]
        exact hmem0 X Y (Z - 1 - 1) (by omega) (by omega) (by omega) (by omega) (by omega)
          (by omega) (by omega) (by omega) (by omega) (by omega)
      · rw [if_neg h, zeroChunk_getCore]
    unfold cellMask
    rw [r1, r2, r3, r4, r5, r6]
    decide
  have hgetopt : ∀ q : Nat, q ≠ c.key →
      (VoxelWorld.make.insert c).getOpt q zeroChunk = zeroChunk := by
    intro q hq
    unfold VoxelWorld.getOpt
    rw [singleWorld_get, if_neg hq]
  have hxpk : Morton.incX c.key ≠ c.key := by
    rw [hkey, Morton.incX_fromN]
    intro h
    have h2 := congrArg Morton.getX h
    rw [Morton.getX_fromN, Morton.getX_fromN] at h2
    omega
  have hxnk : Morton.decX c.key ≠ c.key := by
    rw [hkey, Morton.decX_fromN]
    intro h
    have h2 := congrArg Morton.getX h
    rw [Morton.getX_fromN, Morton.getX_fromN] at h2
    omega
  have hypk : Morton.incY c.key ≠ c.key := by
    rw [hkey, Morton.incY_fromN]
    intro h
    have h2 := congrArg Morton.getY h
    rw [Morton.getY_fromN, Morton.getY_fromN] at h2
    omega
  have hynk : Morton.decY c.key ≠ c.key := by
    rw [hkey, Morton.decY_fromN]
    intro h
    have h2 := congrArg Morton.getY h
    rw [Morton.getY_fromN, Morton.getY_fromN] at h2
    omega
  have hzpk : Morton.incZ c.key ≠ c.key := by
    rw [hkey, Morton.incZ_fromN]
    intro h
    have h2 := congrArg Morton.getZ h
    rw [Morton.getZ_fromN, Morton.getZ_fromN] at h2
    omega
  have hznk : Morton.decZ c.key ≠ c.key := by
    rw [hkey, Morton.decZ_fromN]
    intro h
    have h2 := congrArg Morton.getZ h
    rw [Morton.getZ_fromN, Morton.getZ_fromN] at h2
    omega
  have hne : ¬ (c.layer.length ≤ 0) := by
    apply layer_length_pos c.layer hsz hwd (pos16 X Y Z) (pos16_lt X Y Z)
    rw [hmem1 X Y Z (by simp [starKeys])]
    exact one_ne_zero
  obtain ⟨buf, hbuf, hbsize, hchar⟩ := computeLoop_ok c zeroChunk zeroChunk zeroChunk
    zeroChunk zeroChunk zeroChunk hsz zeroChunk_size zeroChunk_size zeroChunk_size
    zeroChunk_size zeroChunk_size zeroChunk_size 4096 (by omega)
  refine ⟨buf, ?_, ?_, ?_, ?_, ?_, ?_, ?_, ?_,
    by decide, by decide, by decide, by decide, by decide, by decide⟩
  · simp only [computeIndices]
    rw [if_neg hne]
    rw [hgetopt _ hxpk, hgetopt _ hxnk, hgetopt _ hypk, hgetopt _ hynk,
      hgetopt _ hzpk, hgetopt _ hznk]
    exact hbuf
  · rw [hchar, if_pos ⟨pos16_lt X Y Z,
      by rw [hmem1 X Y Z (by simp [starKeys])]; exact one_ne_zero⟩, hcmask]
  · rw [hchar, if_pos ⟨pos16_lt (X + 1) Y Z,
      by rw [hmem1 (X + 1) Y Z (by simp [starKeys])]; exact one_ne_zero⟩, hxpmask]
  · rw [hchar, if_pos ⟨pos16_lt (X - 1) Y Z,
      by rw [hmem1 (X - 1) Y Z (by simp [starKeys])]; exact one_ne_zero⟩, hxnmask]
  · rw [hchar, if_pos ⟨pos16_lt X (Y + 1) Z,
      by rw [hmem1 X (Y + 1) Z (by simp [starKeys])]; exact one_ne_zero⟩, hypmask]
  · rw [hchar, if_pos ⟨pos16_lt X (Y - 1) Z,
      by rw [hmem1 X (Y - 1) Z (by simp [starKeys])]; exact one_ne_zero⟩, hynmask]
  · rw [hchar, if_pos ⟨pos16_lt X Y (Z + 1),
      by rw [hmem1 X Y (Z + 1) (by simp [starKeys])]; exact one_ne_zero⟩, hzpmask]
  · rw [hchar, if_pos ⟨pos16_lt X Y (Z - 1),
      by rw [hmem1 X Y (Z - 1) (by simp [starKeys])]; exact one_ne_zero⟩, hznmask]

/-- Concrete single-chunk world for the C1 witness: the star around
(2,2,2); bit keys 26 (word 0) and 42, 58, 46, 38, 43, 41 (word 1). -/
def starChunk : VoxelChunk :=
  ⟨Morton.fromN 1 2 3, ⟨⟨((Array.mkArray 128 0).setD 0 67108864).setD 1 67128896⟩⟩⟩

theorem starChunk_bits : ∀ k, k < 4096 →
    starChunk.layer.getCore k = if k ∈ starKeys 2 2 2 then 1 else 0 := by
  intro k hk
  have h32 : k % 32 < 32 := Nat.mod_lt _ (by norm_num)
  have hsz0 : (Array.mkArray 128 (0 : Nat)).size = 128 := by simp
  have hsz1 : ((Array.mkArray 128 (0 : Nat)).setD 0 67108864).size = 128 := by
    rw [arr_size_setD]
    exact hsz0
  have hw : starChunk.layer.bits.words.getD (k / 32) 0
      = if k / 32 = 1 then 67128896 else if k / 32 = 0 then 67108864 else 0 := by
    show (((Array.mkArray 128 0).setD 0 67108864).setD 1 67128896).getD (k / 32) 0 = _
    rw [arr_getD_setD, hsz1, arr_getD_setD, hsz0, arr_getD_mkArray]
    by_cases h1 : k / 32 = 1
    · rw [if_pos ⟨h1, by norm_num⟩, if_pos h1]
    · rw [if_neg (fun hh => h1 hh.1), if_neg h1]
      by_cases h0 : k / 32 = 0
      · rw [if_pos ⟨h0, by norm_num⟩, if_pos h0]
      · rw [if_neg (fun hh => h0 hh.1), if_neg h0, ite_self]
  have hsk : starKeys 2 2 2 = [42, 58, 26, 46, 38, 43, 41] := by decide
  have hb1 : ∀ p, p < 32 → BitOps.bitAt 67128896 p
      = if p = 6 ∨ p = 9 ∨ p = 10 ∨ p = 11 ∨ p = 14 ∨ p = 26 then 1 else 0 := by decide
  have hb0 : ∀ p, p < 32 → BitOps.bitAt 67108864 p = if p = 26 then 1 else 0 := by decide
  show BitOps.bitAt (starChunk.layer.bits.words.getD (k / 32) 0) (k % 32)
    = if k ∈ starKeys 2 2 2 then 1 else 0
  rw [hw, hsk]
  simp only [List.mem_cons, List.not_mem_nil, or_false]
  by_cases h1 : k / 32 = 1
  · rw [if_pos h1, hb1 _ h32]
    exact if_congr (by omega) rfl rfl
  · rw [if_neg h1]
    by_cases h0 : k / 32 = 0
    · rw [if_pos h0, hb0 _ h32]
      exact if_congr (by omega) rfl rfl
    · rw [if_neg h0]
      have hz : BitOps.bitAt 0 (k % 32) = 0 := by
        unfold BitOps.bitAt
        rw [Nat.zero_shiftRight]
        decide
      rw [hz, if_neg (by omega)]

set_option maxHeartbeats 4000000 in
theorem claim_C1_face_solver_occlusion_witness :
    ∃ buf, computeIndices starChunk (VoxelWorld.make.insert starChunk) = .ok buf ∧
      buf.getD (pos16 2 2 2) 0 = 0 ∧
      buf.getD (pos16 (2 + 1) 2 2) 0 = 61 ∧
      buf.getD (pos16 (2 - 1) 2 2) 0 = 62 ∧
      buf.getD (pos16 2 (2 + 1) 2) 0 = 55 ∧
      buf.getD (pos16 2 (2 - 1) 2) 0 = 59 ∧
      buf.getD (pos16 2 2 (2 + 1)) 0 = 31 ∧
      buf.getD (pos16 2 2 (2 - 1)) 0 = 47 ∧
      BitOps.popCount 61 = 5 ∧ BitOps.popCount 62 = 5 ∧ BitOps.popCount 55 = 5 ∧
      BitOps.popCount 59 = 5 ∧ BitOps.popCount 31 = 5 ∧ BitOps.popCount 47 = 5 :=
  claim_C1_face_solver_occlusion 1 2 3 2 2 2 (by decide) (by decide) (by decide)
    starChunk rfl ⟨by decide, by decide⟩ starChunk_bits

/-- Claim C2: in a world where the chunk's six neighbours are absent, a
lone set bitvoxel at the chunk corner (0,0,0)/(0,0,0) receives mask 0x3F:
each absent neighbour chunk is read as an all-zero chunk. -/
theorem claim_C2_chunk_boundary_visibility (a b d : Nat) (c : VoxelChunk)
    (hkey : c.key = Morton.fromN a b d) (hwf : LayerWF c.layer)
    (hbits : ∀ k, k < 4096 →
      c.layer.getCore k = if k = pos16 0 0 0 then 1 else 0) :
    ∃ buf, computeIndices c (VoxelWorld.make.insert c) = .ok buf ∧
      buf.getD (pos16 0 0 0) 0 = 63 := by
  obtain ⟨hsz, hwd⟩ := hwf
  have h000 : c.layer.getCore (pos16 0 0 0) = 1 := by
    rw [hbits _ (pos16_lt 0 0 0), if_pos rfl]
  have hzero : ∀ A B C : Nat, A < 16 → B < 16 → C < 16 → ¬ (A = 0 ∧ B = 0 ∧ C = 0) →
      c.layer.getCore (pos16 A B C) = 0 := by
    intro A B C hA hB hC hno
    have hne2 : pos16 A B C ≠ pos16 0 0 0 := by
      intro h
      exact hno (pos16_inj hA hB hC (by omega) (by omega) (by omega) h)
    rw [hbits _ (pos16_lt A B C), if_neg hne2]
  have hmask : cellMask c zeroChunk zeroChunk zeroChunk zeroChunk zeroChunk zeroChunk
      (pos16 0 0 0) = 63 := by
    have r1 : readXP c.layer.getCore zeroChunk.layer.getCore (pos16 0 0 0) = 0 := by
      rw [readXP_eval _ _ 0 0 0 (by omega) (by omega) (by omega), if_pos (by omega)]
      exact hzero (0 + 1) 0 0 (by omega) (by omega) (by omega) (by omega)
    have r2 : readXN c.layer.getCore zeroChunk.layer.getCore (pos16 0 0 0) = 0 := by
      rw [readXN_eval _ _ 0 0 0 (by omega) (by omega) (by omega), if_neg (by omega),
        zeroChunk_getCore]
    have r3 : readYP c.layer.getCore zeroChunk.layer.getCore (pos16 0 0 0) = 0 := by
      rw [readYP_eval _ _ 0 0 0 (by omega) (by omega) (by omega), if_pos (by omega)]
      exact hzero 0 (0 + 1) 0 (by omega) (by omega) (by omega) (by omega)
    have r4 : readYN c.layer.getCore zeroChunk.layer.getCore (pos16 0 0 0) = 0 := by
      rw [readYN_eval _ _ 0 0 0 (by omega) (by omega) (by omega), if_neg (by omega),
        zeroChunk_getCore]
    have r5 : readZP c.layer.getCore zeroChunk.layer.getCore (pos16 0 0 0) = 0 := by
      rw [readZP_eval _ _ 0 0 0 (by omega) (by omega) (by omega), if_pos (by omega)]
      exact hzero 0 0 (0 + 1) (by omega) (by omega) (by omega) (by omega)
    have r6 : readZN c.layer.getCore zeroChunk.layer.getCore (pos16 0 0 0) = 0 := by
      rw [readZN_eval _ _ 0 0 0 (by omega) (by omega) (by omega), if_neg (by omega),
        zeroChunk_getCore]
    unfold cellMask
    rw [r1, r2, r3, r4, r5, r6]
    decide
  have hgetopt : ∀ q : Nat, q ≠ c.key →
      (VoxelWorld.make.insert c).getOpt q zeroChunk = zeroChunk := by
    intro q hq
    unfold VoxelWorld.getOpt
    rw [singleWorld_get, if_neg hq]
  have hxpk : Morton.incX c.key ≠ c.key := by
    rw [hkey, Morton.incX_fromN]
    intro h
    have h2 := congrArg Morton.getX h
    rw [Morton.getX_fromN, Morton.getX_fromN] at h2
    omega
  have hxnk : Morton.decX c.key ≠ c.key := by
    rw [hkey, Morton.decX_fromN]
    intro h
    have h2 := congrArg Morton.getX h
    rw [Morton.getX_fromN, Morton.getX_fromN] at h2
    omega
  have hypk : Morton.incY c.key ≠ c.key := by
    rw [hkey, Morton.incY_fromN]
    intro h
    have h2 := congrArg Morton.getY h
    rw [Morton.getY_fromN, Morton.getY_fromN] at h2
    omega
  have hynk : Morton.decY c.key ≠ c.key := by
    rw [hkey, Morton.decY_fromN]
    intro h
    have h2 := congrArg Morton.getY h
    rw [Morton.getY_fromN, Morton.getY_fromN] at h2
    omega
  have hzpk : Morton.incZ c.key ≠ c.key := by
    rw [hkey, Morton.incZ_fromN]
    intro h
    have h2 := congrArg Morton.getZ h
    rw [Morton.getZ_fromN, Morton.getZ_fromN] at h2
    omega
  have hznk : Morton.decZ c.key ≠ c.key := by
    rw [hkey, Morton.decZ_fromN]
    intro h
    have h2 := congrArg Morton.getZ h
    rw [Morton.getZ_fromN, Morton.getZ_fromN] at h2
    omega
  have hne : ¬ (c.layer.length ≤ 0) := by
    apply layer_length_pos c.layer hsz hwd (pos16 0 0 0) (pos16_lt 0 0 0)
    rw [h000]
    exact one_ne_zero
  obtain ⟨buf, hbuf, hbsize, hchar⟩ := computeLoop_ok c zeroChunk zeroChunk zeroChunk
    zeroChunk zeroChunk zeroChunk hsz zeroChunk_size zeroChunk_size zeroChunk_size
    zeroChunk_size zeroChunk_size zeroChunk_size 4096 (by omega)
  refine ⟨buf, ?_, ?_⟩
  · simp only [computeIndices]
    rw [if_neg hne]
    rw [hgetopt _ hxpk, hgetopt _ hxnk, hgetopt _ hypk, hgetopt _ hynk,
      hgetopt _ hzpk, hgetopt _ hznk]
    exact hbuf
  · rw [hchar, if_pos ⟨pos16_lt 0 0 0, by rw [h000]; exact one_ne_zero⟩, hmask]

/-- Concrete single-chunk world for the C2 witness: only bit key 0, the
corner bitvoxel (0,0,0)/(0,0,0). -/
def cornerChunk : VoxelChunk :=
  ⟨Morton.fromN 5 6 7, ⟨⟨(Array.mkArray 128 0).setD 0 1⟩⟩⟩

theorem cornerChunk_bits : ∀ k, k < 4096 →
    cornerChunk.layer.getCore k = if k = pos16 0 0 0 then 1 else 0 := by
  intro k hk
  have h32 : k % 32 < 32 := Nat.mod_lt _ (by norm_num)
  have hsz0 : (Array.mkArray 128 (0 : Nat)).size = 128 := by simp
  have hw : cornerChunk.layer.bits.words.getD (k / 32) 0
      = if k / 32 = 0 then 1 else 0 := by
    show ((Array.mkArray 128 0).setD 0 1).getD (k / 32) 0 = _
    rw [arr_getD_setD, hsz0, arr_getD_mkArray]
    by_cases h0 : k / 32 = 0
    · rw [if_pos ⟨h0, by norm_num⟩, if_pos h0]
    · rw [if_neg (fun hh => h0 hh.1), if_neg h0, ite_self]
  have hp0 : pos16 0 0 0 = 0 := by decide
  have hb : ∀ p, p < 32 → BitOps.bitAt 1 p = if p = 0 then 1 else 0 := by decide
  show BitOps.bitAt (cornerChunk.layer.bits.words.getD (k / 32) 0) (k % 32)
    = if k = pos16 0 0 0 then 1 else 0
  rw [hw, hp0]
  by_cases h0 : k / 32 = 0
  · rw [if_pos h0, hb _ h32]
    exact if_congr (by omega) rfl rfl
  · rw [if_neg h0]
    have hz : BitOps.bitAt 0 (k % 32) = 0 := by
      unfold BitOps.bitAt
      rw [Nat.zero_shiftRight]
      decide
    rw [hz, if_neg (by omega)]

set_option maxHeartbeats 4000000 in
theorem claim_C2_chunk_boundary_visibility_witness :
    ∃ buf, computeIndices cornerChunk (VoxelWorld.make.insert cornerChunk) = .ok buf ∧
      buf.getD (pos16 0 0 0) 0 = 63 :=
  claim_C2_chunk_boundary_visibility 5 6 7 cornerChunk rfl ⟨by decide, by decide⟩
    cornerChunk_bits

end FaceSolver

section Raycaster

/-- Embedding of VoxelRay: a finite segment in voxel space; JS numbers are
modelled as rationals. -/
structure VoxelRay where
  startX : ℚ
  startY : ℚ
  startZ : ℚ
  endX : ℚ
  endY : ℚ
  endZ : ℚ

/-- A JS number that may be +Infinity: none stands for +Infinity. -/
def qadd : Option ℚ → Option ℚ → Option ℚ
  | none, _ => none
  | _, none => none
  | some a, some b => some (a + b)

/-- IEEE comparison on finite-or-+Infinity values: x <= +Inf holds, +Inf <= finite
does not. -/
def qle : Option ℚ → Option ℚ → Bool
  | _, none => true
  | none, some _ => false
  | some a, some b => decide (a ≤ b)

/-- Chunk Morton key of WorldIndex.from (chunk coordinates are the world
coordinates over DIMS^2 = 16, truncated by the JS OR with 0). -/
def worldChunkKey (i j k : Int) : Nat :=
  Morton.fromI (toInt32 (Int.tdiv i 16)) (toInt32 (Int.tdiv j 16)) (toInt32 (Int.tdiv k 16))

/-- Voxel index of WorldIndex.from: voxel coordinates from the remainder
mod 16 over DIMS = 4, bitvoxel coordinates from the remainder mod 4. -/
def worldVoxelKey (i j k : Int) : Nat :=
  VoxelIndex.encodeI
    (toInt32 (Int.tdiv (Int.tmod i 16) 4)) (toInt32 (Int.tdiv (Int.tmod j 16) 4))
    (toInt32 (Int.tdiv (Int.tmod k 16) 4))
    (toInt32 (Int.tmod i 4)) (toInt32 (Int.tmod j 4)) (toInt32 (Int.tmod k 4))

theorem encodeI_lt (x y z u v w : Int) : VoxelIndex.encodeI x y z u v w < 4096 := by
  unfold VoxelIndex.encodeI
  exact VoxelIndex.encodeN_lt _ _ _ _ _ _

/-- The raycaster's cell test: chunk lookup plus getBitVoxel === 1. -/
def rayHit (w : VoxelWorld) (i j k : Int) : Except JSError Bool :=
  match w.get (worldChunkKey i j k) with
  | none => .ok false
  | some ch => do
      let b ← ch.getBitVoxel (worldVoxelKey i j k)
      pure (b == 1)

/-- The DDA loop of VoxelRaycaster.raycast, with explicit fuel standing for
the number of iterations the JS while(true) loop may perform: a result of
none means the loop did not return within that many iterations; some none
is the JS null return, some (some (i,j,k)) a hit at cell (i,j,k). -/
def raycastLoop (w : VoxelWorld) (iend jend kend di dj dk : Int)
    (dtx dty dtz : Option ℚ) :
    Nat → Int → Int → Int → Option ℚ → Option ℚ → Option ℚ →
      Except JSError (Option (Option (Int × Int × Int)))
  | 0, _, _, _, _, _, _ => .ok none
  | fuel + 1, i, j, k, tx, ty, tz => do
      let hit ← rayHit w i j k
      if hit then
        pure (some (some (i, j, k)))
      else if qle tx ty && qle tx tz then
        if i = iend then pure (some none)
        else (raycastLoop w iend jend kend di dj dk dtx dty dtz fuel
          (i + di) j k (qadd tx dtx) ty tz)
      else if qle ty tx && qle ty tz then
        if j = jend then pure (some none)
        else (raycastLoop w iend jend kend di dj dk dtx dty dtz fuel
          i (j + dj) k tx (qadd ty dty) tz)
      else
        if k = kend then pure (some none)
        else (raycastLoop w iend jend kend di dj dk dtx dty dtz fuel
          i j (k + dk) tx ty (qadd tz dtz))

/-- deltat of an axis: cellSize / |b - a|, +Infinity on a degenerate axis. -/
def deltaT (a b : ℚ) : Option ℚ :=
  if a = b then none else some (1 / |b - a|)

/-- Initial t of an axis ((a > b) picks the distance to the lower cell face,
otherwise to the upper); +Infinity on a degenerate axis. -/
def initT (a b : ℚ) : Option ℚ :=
  if a = b then none
  else some ((if a > b then a - ⌊a⌋ else (⌊a⌋ + 1 - a)) / |b - a|)

/-- Embedding of VoxelRaycaster.raycast (cellSize = 1): the current and end
cells pass through Math.floor and the int32 wrap of the JS OR with 0. -/
def raycast (w : VoxelWorld) (r : VoxelRay) (fuel : Nat) :
    Except JSError (Option (Option (Int × Int × Int))) :=
  let i := toInt32 ⌊r.startX⌋
  let j := toInt32 ⌊r.startY⌋
  let k := toInt32 ⌊r.startZ⌋
  let iend := toInt32 ⌊r.endX⌋
  let jend := toInt32 ⌊r.endY⌋
  let kend := toInt32 ⌊r.endZ⌋
  let di : Int := if r.startX < r.endX then 1 else if r.endX < r.startX then -1 else 0
  let dj : Int := if r.startY < r.endY then 1 else if r.endY < r.startY then -1 else 0
  let dk : Int := if r.startZ < r.endZ then 1 else if r.endZ < r.startZ then -1 else 0
  raycastLoop w iend jend kend di dj dk
    (deltaT r.startX r.endX) (deltaT r.startY r.endY) (deltaT r.startZ r.endZ)
    fuel i j k
    (initT r.startX r.endX) (initT r.startY r.endY) (initT r.startZ r.endZ)

theorem rayHit_ok (w : VoxelWorld)
    (hwf : ∀ key ch, w.get key = some ch → ch.layer.bits.words.size = 128)
    (i j k : Int) : ∃ b, rayHit w i j k = .ok b := by
  unfold rayHit
  cases hw : w.get (worldChunkKey i j k) with
  | none => exact ⟨false, rfl⟩
  | some ch =>
    have hok := BVXLayer.get_eq_core ch.layer (worldVoxelKey i j k)
      (encodeI_lt _ _ _ _ _ _) (hwf _ _ hw)
    refine ⟨(ch.layer.getCore (worldVoxelKey i j k) == 1), ?_⟩
    show (ch.getBitVoxel (worldVoxelKey i j k) >>= fun b => pure (b == 1))
      = Except.ok (ch.layer.getCore (worldVoxelKey i j k) == 1)
    rw [show ch.getBitVoxel (worldVoxelKey i j k)
      = .ok (ch.layer.getCore (worldVoxelKey i j k)) from hok, except_bind_ok]
    rfl

theorem raycastLoop_ok (w : VoxelWorld)
    (hwf : ∀ key ch, w.get key = some ch → ch.layer.bits.words.size = 128)
    (iend jend kend di dj dk : Int) (dtx dty dtz : Option ℚ) :
    ∀ fuel i j k tx ty tz,
      ((di = 1 ∧ i ≤ iend) ∨ (di = -1 ∧ iend ≤ i) ∨ (di = 0 ∧ i = iend)) →
      ((dj = 1 ∧ j ≤ jend) ∨ (dj = -1 ∧ jend ≤ j) ∨ (dj = 0 ∧ j = jend)) →
      ((dk = 1 ∧ k ≤ kend) ∨ (dk = -1 ∧ kend ≤ k) ∨ (dk = 0 ∧ k = kend)) →
      (iend - i).natAbs + (jend - j).natAbs + (kend - k).natAbs < fuel →
      ∃ res, raycastLoop w iend jend kend di dj dk dtx dty dtz fuel i j k tx ty tz
          = .ok (some res) ∧
        ∀ p : Int × Int × Int, res = some p → rayHit w p.1 p.2.1 p.2.2 = .ok true := by
  intro fuel
  induction fuel with
  | zero =>
    intro i j k tx ty tz _ _ _ hm
    exact absurd hm (by omega)
  | succ n ih =>
    intro i j k tx ty tz hx hy hz hm
    obtain ⟨b, hb⟩ := rayHit_ok w hwf i j k
    simp only [raycastLoop]
    rw [hb, except_bind_ok]
    by_cases hbt : b = true
    · rw [if_pos hbt]
      refine ⟨some (i, j, k), rfl, ?_⟩
      intro p hp
      have hpe : p = (i, j, k) := by
        injection hp with h
        exact h.symm
      subst hpe
      show rayHit w i j k = .ok true
      rw [hb, hbt]
    · rw [if_neg hbt]
      by_cases hq1 : (qle tx ty && qle tx tz) = true
      · rw [if_pos hq1]
        by_cases hie : i = iend
        · rw [if_pos hie]
          exact ⟨none, rfl, fun p hp => Option.noConfusion hp⟩
        · rw [if_neg hie]
          rcases hx with ⟨hd, hle⟩ | ⟨hd, hle⟩ | ⟨hd, heq⟩
          · subst hd
            exact ih (i + 1) j k (qadd tx dtx) ty tz (Or.inl ⟨rfl, by omega⟩) hy hz
              (by omega)
          · subst hd
            exact ih (i + -1) j k (qadd tx dtx) ty tz (Or.inr (Or.inl ⟨rfl, by omega⟩))
              hy hz (by omega)
          · exact absurd heq hie
      · rw [if_neg hq1]
        by_cases hq2 : (qle ty tx && qle ty tz) = true
        · rw [if_pos hq2]
          by_cases hje : j = jend
          · rw [if_pos hje]
            exact ⟨none, rfl, fun p hp => Option.noConfusion hp⟩
          · rw [if_neg hje]
            rcases hy with ⟨hd, hle⟩ | ⟨hd, hle⟩ | ⟨hd, heq⟩
            · subst hd
              exact ih i (j + 1) k tx (qadd ty dty) tz hx (Or.inl ⟨rfl, by omega⟩) hz
                (by omega)
            · subst hd
              exact ih i (j + -1) k tx (qadd ty dty) tz hx
                (Or.inr (Or.inl ⟨rfl, by omega⟩)) hz (by omega)
            · exact absurd heq hje
        · rw [if_neg hq2]
          by_cases hke : k = kend
          · rw [if_pos hke]
            exact ⟨none, rfl, fun p hp => Option.noConfusion hp⟩
          · rw [if_neg hke]
            rcases hz with ⟨hd, hle⟩ | ⟨hd, hle⟩ | ⟨hd, heq⟩
            · subst hd
              exact ih i j (k + 1) tx ty (qadd tz dtz) hx hy (Or.inl ⟨rfl, by omega⟩)
                (by omega)
            · subst hd
              exact ih i j (k + -1) tx ty (qadd tz dtz) hx hy
                (Or.inr (Or.inl ⟨rfl, by omega⟩)) (by omega)
            · exact absurd heq hke

theorem toInt32_of_range (v : Int) (h1 : -2147483648 ≤ v) (h2 : v < 2147483648) :
    toInt32 v = v := by
  simp only [toInt32]
  omega

/-- A ray whose six cell floors stay inside the int32 range, so the JS OR
with 0 does not wrap them. -/
abbrev FloorsInRange (r : VoxelRay) : Prop :=
  -2147483648 ≤ ⌊r.startX⌋ ∧ ⌊r.startX⌋ < 2147483648 ∧
  -2147483648 ≤ ⌊r.startY⌋ ∧ ⌊r.startY⌋ < 2147483648 ∧
  -2147483648 ≤ ⌊r.startZ⌋ ∧ ⌊r.startZ⌋ < 2147483648 ∧
  -2147483648 ≤ ⌊r.endX⌋ ∧ ⌊r.endX⌋ < 2147483648 ∧
  -2147483648 ≤ ⌊r.endY⌋ ∧ ⌊r.endY⌋ < 2147483648 ∧
  -2147483648 ≤ ⌊r.endZ⌋ ∧ ⌊r.endZ⌋ < 2147483648

/-- The iteration bound the spec claims, computed from the true floors of
the segment ends. -/
def rayBound (r : VoxelRay) : Nat :=
  (⌊r.endX⌋ - ⌊r.startX⌋).natAbs + (⌊r.endY⌋ - ⌊r.startY⌋).natAbs +
    (⌊r.endZ⌋ - ⌊r.startZ⌋).natAbs + 1

/-- The counterexample segment: start (2^31, 0, 0), end (2^31 - 10, 0, 0);
its floors differ by 10, so the claimed bound is 11. -/
def bigRay : VoxelRay := ⟨2147483648, 0, 0, 2147483638, 0, 0⟩

/-- A small segment used to instantiate the amended statement. -/
def smallRay : VoxelRay := ⟨3, 2, 1, 0, 2, 9⟩

set_option maxHeartbeats 2000000 in
/-- Counterexample to claim C6 as stated: the segment from (2^31, 0, 0) to
(2^31 - 10, 0, 0) has floors differing by 10, so the claimed iteration
bound is 11, yet raycast performs 11 iterations without returning: the
int32 wrap of Math.floor(x)|0 sends the start cell to -2^31 while iend is
2147483638 with step direction -1, so the loop moves away from iend. -/
theorem claim_C6_raycast_termination_bound_counterexample :
    rayBound bigRay = 11 ∧ raycast VoxelWorld.make bigRay 11 = .ok none := by
  constructor
  · rfl
  · rfl

set_option maxHeartbeats 2000000 in
/-- Claim C6 (corrected, amended statement): for every world whose chunks
carry 128-word layers and every ray whose six cell floors lie in the int32
range, raycast returns within |iend-i| + |jend-j| + |kend-k| + 1
iterations, yielding null or a cell whose bitvoxel test holds; outside
that range the int32 wrap of Math.floor(x)|0 breaks the bound (see the
counterexample). -/
theorem claim_C6_raycast_termination_bound :
    ∀ (w : VoxelWorld) (r : VoxelRay),
      (∀ key ch, w.get key = some ch → ch.layer.bits.words.size = 128) →
      FloorsInRange r →
      ∃ res, raycast w r (rayBound r) = .ok (some res) ∧
        ∀ p : Int × Int × Int, res = some p → rayHit w p.1 p.2.1 p.2.2 = .ok true := by
  intro w r hwf hr
  obtain ⟨a1, a2, b1, b2, c1, c2, d1, d2, e1, e2, f1, f2⟩ := hr
  simp only [raycast]
  rw [toInt32_of_range _ a1 a2, toInt32_of_range _ b1 b2, toInt32_of_range _ c1 c2,
    toInt32_of_range _ d1 d2, toInt32_of_range _ e1 e2, toInt32_of_range _ f1 f2]
  have hinvx : ((if r.startX < r.endX then (1 : Int)
        else if r.endX < r.startX then -1 else 0) = 1 ∧ ⌊r.startX⌋ ≤ ⌊r.endX⌋) ∨
      ((if r.startX < r.endX then (1 : Int)
        else if r.endX < r.startX then -1 else 0) = -1 ∧ ⌊r.endX⌋ ≤ ⌊r.startX⌋) ∨
      ((if r.startX < r.endX then (1 : Int)
        else if r.endX < r.startX then -1 else 0) = 0 ∧ ⌊r.startX⌋ = ⌊r.endX⌋) := by
    rcases lt_trichotomy r.startX r.endX with h | h | h
    · exact Or.inl ⟨by rw [if_pos h], Int.floor_le_floor h.le⟩
    · refine Or.inr (Or.inr ⟨?_, by rw [h]⟩)
      rw [if_neg (by rw [h]; exact lt_irrefl _), if_neg (by rw [h]; exact lt_irrefl _)]
    · exact Or.inr (Or.inl ⟨by rw [if_neg (asymm h), if_pos h], Int.floor_le_floor h.le⟩)
  have hinvy : ((if r.startY < r.endY then (1 : Int)
        else if r.endY < r.startY then -1 else 0) = 1 ∧ ⌊r.startY⌋ ≤ ⌊r.endY⌋) ∨
      ((if r.startY < r.endY then (1 : Int)
        else if r.endY < r.startY then -1 else 0) = -1 ∧ ⌊r.endY⌋ ≤ ⌊r.startY⌋) ∨
      ((if r.startY < r.endY then (1 : Int)
        else if r.endY < r.startY then -1 else 0) = 0 ∧ ⌊r.startY⌋ = ⌊r.endY⌋) := by
    rcases lt_trichotomy r.startY r.endY with h | h | h
    · exact Or.inl ⟨by rw [if_pos h], Int.floor_le_floor h.le⟩
    · refine Or.inr (Or.inr ⟨?_, by rw [h]⟩)
      rw [if_neg (by rw [h]; exact lt_irrefl _), if_neg (by rw [h]; exact lt_irrefl _)]
    · exact Or.inr (Or.inl ⟨by rw [if_neg (asymm h), if_pos h], Int.floor_le_floor h.le⟩)
  have hinvz : ((if r.startZ < r.endZ then (1 : Int)
        else if r.endZ < r.startZ then -1 else 0) = 1 ∧ ⌊r.startZ⌋ ≤ ⌊r.endZ⌋) ∨
      ((if r.startZ < r.endZ then (1 : Int)
        else if r.endZ < r.startZ then -1 else 0) = -1 ∧ ⌊r.endZ⌋ ≤ ⌊r.startZ⌋) ∨
      ((if r.startZ < r.endZ then (1 : Int)
        else if r.endZ < r.startZ then -1 else 0) = 0 ∧ ⌊r.startZ⌋ = ⌊r.endZ⌋) := by
    rcases lt_trichotomy r.startZ r.endZ with h | h | h
    · exact Or.inl ⟨by rw [if_pos h], Int.floor_le_floor h.le⟩
    · refine Or.inr (Or.inr ⟨?_, by rw [h]⟩)
      rw [if_neg (by rw [h]; exact lt_irrefl _), if_neg (by rw [h]; exact lt_irrefl _)]
    · exact Or.inr (Or.inl ⟨by rw [if_neg (asymm h), if_pos h], Int.floor_le_floor h.le⟩)
  exact raycastLoop_ok w hwf _ _ _ _ _ _ _ _ _ (rayBound r) _ _ _ _ _ _
    hinvx hinvy hinvz (by simp only [rayBound]; omega)

theorem claim_C6_raycast_termination_bound_witness :
    ∃ res, raycast VoxelWorld.make smallRay (rayBound smallRay) = .ok (some res) ∧
      ∀ p : Int × Int × Int, res = some p →
        rayHit VoxelWorld.make p.1 p.2.1 p.2.2 = .ok true :=
  claim_C6_raycast_termination_bound VoxelWorld.make smallRay
    (fun key ch h => absurd h (by
      simp [VoxelWorld.make, VoxelWorld.get, HashGrid.make, HashGrid.get]))
    (by decide)

end Raycaster

end BvxKit
